import Mathlib

/-!
Verification of the terrain repository's streaming / meshing pipeline.

The Rust source is shallowly embedded: `f32` scalars are modelled by `ℚ`
(every claim below either quantifies over exact grid values, on which the
`f32` operations used by the code -- multiplication and division by the
power-of-two density, comparison, floor -- are exact, or is independent of
rounding), machine integers by `ℤ`/`ℕ` with explicit range hypotheses where
a claim needs them, and stateful code by explicit state passing.
-/

/-- Component type of `Vec3f` (`src/src/math/vector.rs`), modelled by `ℚ`. -/
structure Vec3 where
  x : ℚ
  y : ℚ
  z : ℚ
deriving DecidableEq

instance : Add Vec3 := ⟨fun a b => ⟨a.x + b.x, a.y + b.y, a.z + b.z⟩⟩

instance : Sub Vec3 := ⟨fun a b => ⟨a.x - b.x, a.y - b.y, a.z - b.z⟩⟩

instance : SMul ℚ Vec3 := ⟨fun c a => ⟨c * a.x, c * a.y, c * a.z⟩⟩

/-- `Vector + f32` broadcast addition used by `field_to_mesh` (`position + size`). -/
def Vec3.addScalar (a : Vec3) (s : ℚ) : Vec3 := ⟨a.x + s, a.y + s, a.z + s⟩

/-- Standard basis vector along axis `i`. -/
def Vec3.basis : Fin 3 → Vec3
  | 0 => ⟨1, 0, 0⟩
  | 1 => ⟨0, 1, 0⟩
  | 2 => ⟨0, 0, 1⟩

lemma Vec3.add_def (a b : Vec3) : a + b = ⟨a.x + b.x, a.y + b.y, a.z + b.z⟩ := rfl

lemma Vec3.sub_def (a b : Vec3) : a - b = ⟨a.x - b.x, a.y - b.y, a.z - b.z⟩ := rfl

lemma Vec3.smul_def (c : ℚ) (a : Vec3) : c • a = ⟨c * a.x, c * a.y, c * a.z⟩ := rfl

/-! ## Scalar field interface (`src/src/math/scalar_field.rs`) -/

/-- A scalar field is a pure total function of three coordinates
(`ScalarField::value_at`). -/
def ScalarFieldFn : Type := ℚ → ℚ → ℚ → ℚ

/-- `const EPS: f32 = 1e-4` of `src/src/math/scalar_field.rs`. -/
def EPS : ℚ := 1 / 10000

/-- Default `ScalarField::gradient_at` of `src/src/math/scalar_field.rs`:
componentwise differences `value_at(p + EPS*e_i) - value_at(p - EPS*e_i)`
(the code does not divide by `2*EPS`). -/
def gradient_at (field : ScalarFieldFn) (x y z : ℚ) : Fin 3 → ℚ :=
  let dx := field (x + EPS) y z - field (x - EPS) y z
  let dy := field x (y + EPS) z - field x (y - EPS) z
  let dz := field x y (z + EPS) - field x y (z - EPS)
  ![dx, dy, dz]

/-- `value_at` applied to a point given as a vector. -/
def fieldAt (field : ScalarFieldFn) (p : Vec3) : ℚ := field p.x p.y p.z

/-! ## ChunkId (`src/src/gfx/lod.rs`, lines 263-296) -/

/-- `const OCTREE_VOXEL_DENSITY: f32 = 8.0`. -/
def OCTREE_VOXEL_DENSITY : ℚ := 8

/-- `ChunkId(i32, i32, i32, u32)`: quantized minimum corner and edge length.
Fields model the four tuple components. -/
structure ChunkId where
  q0 : ℤ
  q1 : ℤ
  q2 : ℤ
  q3 : ℕ
deriving DecidableEq

/-- `ChunkId::new`: each position coordinate is multiplied by the voxel
density and floored (`.floor() as i32`); the size is multiplied by the
density and cast to `u32` (truncation toward zero, which for the
non-negative sizes used equals the floor). -/
def ChunkId.new (position : Vec3) (size : ℚ) : ChunkId :=
  ⟨⌊position.x * OCTREE_VOXEL_DENSITY⌋,
   ⌊position.y * OCTREE_VOXEL_DENSITY⌋,
   ⌊position.z * OCTREE_VOXEL_DENSITY⌋,
   (⌊size * OCTREE_VOXEL_DENSITY⌋).toNat⟩

/-- `ChunkId::position`: integer components divided back by the density. -/
def ChunkId.position (id : ChunkId) : Vec3 :=
  ⟨(id.q0 : ℚ) / OCTREE_VOXEL_DENSITY,
   (id.q1 : ℚ) / OCTREE_VOXEL_DENSITY,
   (id.q2 : ℚ) / OCTREE_VOXEL_DENSITY⟩

/-- `ChunkId::size`. -/
def ChunkId.size (id : ChunkId) : ℚ :=
  (id.q3 : ℚ) / OCTREE_VOXEL_DENSITY

/-! ## Marching cubes scalar helpers (`src/src/marching_cubes.rs`) -/

/-- `find_cube_index` (lines 276-284): sets bit `vertex` of the result iff
the corner value is strictly below the iso-value. -/
def find_cube_index (iso_value : ℚ) (values_on_cube : Fin 8 → ℚ) : ℕ :=
  (List.finRange 8).foldl
    (fun index vertex =>
      if values_on_cube vertex < iso_value then index ||| (1 <<< (vertex : ℕ)) else index)
    0

/-- `iso_value_interpolation` (lines 286-298). -/
def iso_value_interpolation (iso_value p1 p2 field_value1 field_value2 : ℚ) : ℚ :=
  if |field_value1 - field_value2| < 1 / 1000000 then
    (p1 + p2) / 2
  else
    (p2 - p1) * (iso_value - field_value1) / (field_value2 - field_value1) + p1

/-- Edge direction tag (`enum Axis`). -/
inductive Axis where
  | X
  | Y
  | Z

/-- Mesh vertex (`Vertex` of `mesh.rs`): a position and a normal. -/
structure Vertex where
  position : Vec3
  normal : Vec3
deriving DecidableEq

/-- `intersection_vertex` (lines 306-325): replaces the coordinate along
`axis` with the interpolated intersection; the normal starts at zero. -/
def intersection_vertex (x y z adjacent : ℚ) (axis : Axis)
    (field_value1 field_value2 iso_value : ℚ) : Vertex :=
  match axis with
  | Axis.X =>
    { position := ⟨iso_value_interpolation iso_value x adjacent field_value1 field_value2, y, z⟩
      normal := ⟨0, 0, 0⟩ }
  | Axis.Y =>
    { position := ⟨x, iso_value_interpolation iso_value y adjacent field_value1 field_value2, z⟩
      normal := ⟨0, 0, 0⟩ }
  | Axis.Z =>
    { position := ⟨x, y, iso_value_interpolation iso_value z adjacent field_value1 field_value2⟩
      normal := ⟨0, 0, 0⟩ }

/-! ## Supporting lemmas -/

lemma find_cube_index_foldl_testBit (iso : ℚ) (vals : Fin 8 → ℚ) :
    ∀ (l : List (Fin 8)) (acc : ℕ) (m : ℕ),
      Nat.testBit
          (l.foldl (fun index vertex =>
            if vals vertex < iso then index ||| (1 <<< (vertex : ℕ)) else index) acc) m
        ↔ (Nat.testBit acc m ∨ ∃ v ∈ l, (v : ℕ) = m ∧ vals v < iso) := by
  intro l
  induction l with
  | nil => simp
  | cons a l ih =>
    intro acc m
    simp only [List.foldl_cons, ih, List.mem_cons]
    by_cases h : vals a < iso
    · simp only [h, if_pos]
      rw [Nat.one_shiftLeft, Nat.testBit_or, Nat.testBit_two_pow]
      constructor
      · rintro (h2 | h2)
        · rcases Bool.or_eq_true_iff.mp h2 with h3 | h3
          · exact Or.inl h3
          · exact Or.inr ⟨a, Or.inl rfl, of_decide_eq_true h3, h⟩
        · rcases h2 with ⟨v, hv, hvm, hvlt⟩
          exact Or.inr ⟨v, Or.inr hv, hvm, hvlt⟩
      · rintro (h2 | ⟨v, hv | hv, hvm, hvlt⟩)
        · exact Or.inl (Bool.or_eq_true_iff.mpr (Or.inl h2))
        · subst hv
          exact Or.inl (Bool.or_eq_true_iff.mpr (Or.inr (decide_eq_true hvm)))
        · exact Or.inr ⟨v, hv, hvm, hvlt⟩
    · simp only [h, if_neg, not_false_iff]
      constructor
      · rintro (h2 | ⟨v, hv, hvm, hvlt⟩)
        · exact Or.inl h2
        · exact Or.inr ⟨v, Or.inr hv, hvm, hvlt⟩
      · rintro (h2 | ⟨v, hv | hv, hvm, hvlt⟩)
        · exact Or.inl h2
        · exact absurd hvlt (hv ▸ h)
        · exact Or.inr ⟨v, hv, hvm, hvlt⟩

/-! ## Claim theorems (first group) -/

/-- C5: for every iso-value and every array of eight corner values, bit `k`
of the marching-cubes cube index is set iff corner `k` is strictly below the
iso-value; a value equal to the iso-value leaves the bit clear. -/
theorem cube_index_bit_iff_below (iso : ℚ) (vals : Fin 8 → ℚ) (k : Fin 8) :
    Nat.testBit (find_cube_index iso vals) (k : ℕ) = true ↔ vals k < iso := by
  unfold find_cube_index
  rw [find_cube_index_foldl_testBit]
  simp only [Nat.zero_testBit]
  constructor
  · rintro (h | ⟨v, _, hvm, hvlt⟩)
    · simp at h
    · rwa [show v = k from Fin.ext hvm] at hvlt
  · intro h
    exact Or.inr ⟨k, List.mem_finRange k, rfl, h⟩

/-- C9: the default gradient is the centred finite difference with step
`EPS = 1e-4`: its `i`-th component is `f(p + EPS*e_i) - f(p - EPS*e_i)`
(no division by `2*EPS` is performed). -/
theorem gradient_at_centered_difference (field : ScalarFieldFn) (p : Vec3) (i : Fin 3) :
    gradient_at field p.x p.y p.z i =
      fieldAt field (p + EPS • Vec3.basis i) - fieldAt field (p - EPS • Vec3.basis i) := by
  obtain ⟨px, py, pz⟩ := p
  fin_cases i <;>
    simp [gradient_at, fieldAt, Vec3.basis, Vec3.add_def, Vec3.sub_def, Vec3.smul_def,
      mul_one, mul_zero, add_zero, sub_zero]

/-- C3: ChunkId round-trip. If every coordinate of `p` lands exactly on the
quantization grid (its product with the density 8 is an integer in `i32`
range) and the size scaled by the density is a `u32`-representable natural
number (as for sizes `root_size / 2^k`), then `ChunkId::new` followed by
`position`/`size` reproduces the inputs exactly. -/
theorem chunkId_roundtrip (p : Vec3) (size : ℚ)
    (hx : ∃ n : ℤ, p.x * 8 = n ∧ -(2 ^ 31) ≤ n ∧ n < 2 ^ 31)
    (hy : ∃ n : ℤ, p.y * 8 = n ∧ -(2 ^ 31) ≤ n ∧ n < 2 ^ 31)
    (hz : ∃ n : ℤ, p.z * 8 = n ∧ -(2 ^ 31) ≤ n ∧ n < 2 ^ 31)
    (hs : ∃ n : ℕ, size * 8 = n ∧ n < 2 ^ 32) :
    (ChunkId.new p size).position = p ∧ (ChunkId.new p size).size = size := by
  obtain ⟨nx, hnx, -, -⟩ := hx
  obtain ⟨ny, hny, -, -⟩ := hy
  obtain ⟨nz, hnz, -, -⟩ := hz
  obtain ⟨ns, hns, -⟩ := hs
  have hD : OCTREE_VOXEL_DENSITY = (8 : ℚ) := rfl
  constructor
  · show Vec3.mk _ _ _ = p
    have ex : (ChunkId.new p size).q0 = nx := by
      simp [ChunkId.new, hD, hnx]
    have ey : (ChunkId.new p size).q1 = ny := by
      simp [ChunkId.new, hD, hny]
    have ez : (ChunkId.new p size).q2 = nz := by
      simp [ChunkId.new, hD, hnz]
    have px : p.x = (nx : ℚ) / 8 := by
      field_simp at hnx ⊢
      linarith [hnx]
    have py : p.y = (ny : ℚ) / 8 := by
      field_simp at hny ⊢
      linarith [hny]
    have pz : p.z = (nz : ℚ) / 8 := by
      field_simp at hnz ⊢
      linarith [hnz]
    cases p
    simp only [ChunkId.position, ex, ey, ez, hD]
    simp_all
  · have es : (ChunkId.new p size).q3 = ns := by
      simp [ChunkId.new, hD, hns]
    have ps : size = (ns : ℚ) / 8 := by
      field_simp
      linarith [hns]
    simp only [ChunkId.size, es, hD]
    exact ps.symm

/-- Witness for C3 at the concrete input `p = (1/2, -3, 0)`, `size = 2`. -/
theorem chunkId_roundtrip_witness :
    (ChunkId.new ⟨1/2, -3, 0⟩ 2).position = ⟨1/2, -3, 0⟩ ∧
      (ChunkId.new ⟨1/2, -3, 0⟩ 2).size = 2 :=
  chunkId_roundtrip ⟨1/2, -3, 0⟩ 2
    ⟨4, by norm_num⟩ ⟨-24, by norm_num⟩ ⟨0, by norm_num⟩ ⟨16, by norm_num⟩

/-- C6: a vertex emitted on a flagged edge sits at the midpoint of the edge
endpoints when the corner field values differ by less than `1e-6` in
absolute value, and otherwise at the linear interpolant of the iso-value
between the two corner values.  Stated for all three edge axes via
`intersection_vertex`. -/
theorem intersection_vertex_interpolation (x y z adj f1 f2 iso : ℚ) :
    ((|f1 - f2| < 1 / 1000000 →
        (intersection_vertex x y z adj Axis.X f1 f2 iso).position = ⟨(x + adj) / 2, y, z⟩ ∧
        (intersection_vertex x y z adj Axis.Y f1 f2 iso).position = ⟨x, (y + adj) / 2, z⟩ ∧
        (intersection_vertex x y z adj Axis.Z f1 f2 iso).position = ⟨x, y, (z + adj) / 2⟩) ∧
     (¬ |f1 - f2| < 1 / 1000000 →
        (intersection_vertex x y z adj Axis.X f1 f2 iso).position =
          ⟨(adj - x) * (iso - f1) / (f2 - f1) + x, y, z⟩ ∧
        (intersection_vertex x y z adj Axis.Y f1 f2 iso).position =
          ⟨x, (adj - y) * (iso - f1) / (f2 - f1) + y, z⟩ ∧
        (intersection_vertex x y z adj Axis.Z f1 f2 iso).position =
          ⟨x, y, (adj - z) * (iso - f1) / (f2 - f1) + z⟩)) := by
  have mid : ∀ p1 : ℚ, |f1 - f2| < 1 / 1000000 →
      iso_value_interpolation iso p1 adj f1 f2 = (p1 + adj) / 2 := by
    intro p1 h
    unfold iso_value_interpolation
    rw [if_pos h]
  have lin : ∀ p1 : ℚ, ¬ |f1 - f2| < 1 / 1000000 →
      iso_value_interpolation iso p1 adj f1 f2 = (adj - p1) * (iso - f1) / (f2 - f1) + p1 := by
    intro p1 h
    unfold iso_value_interpolation
    rw [if_neg h]
  constructor
  · intro h
    exact ⟨by simp [intersection_vertex, mid x h],
           by simp [intersection_vertex, mid y h],
           by simp [intersection_vertex, mid z h]⟩
  · intro h
    exact ⟨by simp [intersection_vertex, lin x h],
           by simp [intersection_vertex, lin y h],
           by simp [intersection_vertex, lin z h]⟩

/-- Witness for C6: both branches exercised at concrete inputs. -/
theorem intersection_vertex_interpolation_witness :
    (intersection_vertex 0 5 6 2 Axis.X 3 3 7).position = ⟨1, 5, 6⟩ ∧
      (intersection_vertex 0 5 6 2 Axis.X 0 1 (1/2)).position = ⟨1, 5, 6⟩ := by
  constructor
  · have h := (intersection_vertex_interpolation 0 5 6 2 3 3 7).1 (by norm_num)
    have hx := h.1
    rw [hx]
    norm_num
  · have h := (intersection_vertex_interpolation 0 5 6 2 0 1 (1/2)).2 (by norm_num)
    have hx := h.1
    rw [hx]
    norm_num

/-! ## Chunk cache states and the ChunkRenderer state machine
(`src/src/gfx/lod.rs`, lines 309-487)

The renderer's mutable state is three stores keyed by `ChunkId` plus the
multiset of submitted worker jobs whose results have not yet been drained
from the channel (`in_flight`; in the source these are the closures running
on the thread pool and the messages waiting in the bounded channel).  The
per-frame `render` call is: drain every completed job, submit fetch
requests up to the in-flight cap, assemble (read-only).  LRU eviction from
the two `LruCache`s is modelled as a separate step that may remove any
entry, over-approximating capacity- and time-based eviction.  Worker
results are deterministic in the `ChunkId` (the field is immutable), which
the model captures with a fixed function `job_empty : ChunkId → Bool`
telling whether the meshed chunk has no vertices. -/

/-- `enum ChunkState` (lines 441-447). -/
inductive ChunkState where
  | Unknown
  | Pending
  | Empty
  | Available
deriving DecidableEq

/-- The mutable stores of `ChunkRenderer` relevant to cache state, plus the
in-flight job multiset. -/
structure RendererState where
  loaded_chunks : Finset ChunkId
  pending_chunks : Finset ChunkId
  empty_chunks : Finset ChunkId
  in_flight : Multiset ChunkId
deriving DecidableEq

/-- `ChunkRenderer::get_chunk_state` (lines 472-487), without its
assertions: the if-chain checking loaded, then empty, then pending. -/
def get_chunk_state (s : RendererState) (id : ChunkId) : ChunkState :=
  if id ∈ s.loaded_chunks then ChunkState.Available
  else if id ∈ s.empty_chunks then ChunkState.Empty
  else if id ∈ s.pending_chunks then ChunkState.Pending
  else ChunkState.Unknown

/-- One drained channel message (lines 370-385): remove the id from the
pending set, then insert it into the empty LRU if the mesh has no vertices
and into the loaded LRU otherwise. -/
def drainOne (job_empty : ChunkId → Bool) (s : RendererState) (id : ChunkId) : RendererState :=
  let s1 : RendererState :=
    { s with pending_chunks := s.pending_chunks.erase id, in_flight := s.in_flight.erase id }
  if job_empty id then { s1 with empty_chunks := insert id s1.empty_chunks }
  else { s1 with loaded_chunks := insert id s1.loaded_chunks }

/-- The non-blocking drain loop: processes the channel messages that have
arrived, in arrival order. -/
def drainAll (job_empty : ChunkId → Bool) (s : RendererState) (done : List ChunkId) :
    RendererState :=
  done.foldl (drainOne job_empty) s

/-- The submit loop (lines 387-425): for each fetch id, break once the
pending set holds more than 8 entries, otherwise submit a job (adding it to
the in-flight multiset) and insert the id into the pending set. -/
def submitLoop (s : RendererState) : List ChunkId → RendererState
  | [] => s
  | id :: rest =>
    if s.pending_chunks.card > 8 then s
    else
      submitLoop
        { s with pending_chunks := insert id s.pending_chunks,
                 in_flight := id ::ₘ s.in_flight }
        rest

/-- `ChunkRenderer::render`: drain, then submit.  The assemble step only
reads the stores.  `done` is the list of completed jobs sitting in the
channel this frame. -/
def render (job_empty : ChunkId → Bool) (s : RendererState)
    (done fetch : List ChunkId) : RendererState :=
  submitLoop (drainAll job_empty s done) fetch

/-- States reachable by the renderer's operations.  A `render` step carries
the function's entry assertions as guards (every draw id Available, every
fetch id Unknown) and requires the drained messages to be in-flight jobs.
`evictLoaded` / `evictEmpty` model LRU eviction from the two caches. -/
inductive Reachable (job_empty : ChunkId → Bool) : RendererState → Prop where
  | init : Reachable job_empty ⟨∅, ∅, ∅, 0⟩
  | render (s : RendererState) (done fetch draws : List ChunkId)
      (hs : Reachable job_empty s)
      (hdone : (done : Multiset ChunkId) ≤ s.in_flight)
      (hdraw : ∀ id ∈ draws, get_chunk_state s id = ChunkState.Available)
      (hfetch : ∀ id ∈ fetch, get_chunk_state s id = ChunkState.Unknown) :
      Reachable job_empty (render job_empty s done fetch)
  | evictLoaded (s : RendererState) (id : ChunkId) (hs : Reachable job_empty s) :
      Reachable job_empty { s with loaded_chunks := s.loaded_chunks.erase id }
  | evictEmpty (s : RendererState) (id : ChunkId) (hs : Reachable job_empty s) :
      Reachable job_empty { s with empty_chunks := s.empty_chunks.erase id }

/-- Reachability when, additionally, every fetch list handed to `render`
has pairwise-distinct ids (the amendment hypothesis of C4). -/
inductive ReachableNodup (job_empty : ChunkId → Bool) : RendererState → Prop where
  | init : ReachableNodup job_empty ⟨∅, ∅, ∅, 0⟩
  | render (s : RendererState) (done fetch draws : List ChunkId)
      (hs : ReachableNodup job_empty s)
      (hdone : (done : Multiset ChunkId) ≤ s.in_flight)
      (hdraw : ∀ id ∈ draws, get_chunk_state s id = ChunkState.Available)
      (hfetch : ∀ id ∈ fetch, get_chunk_state s id = ChunkState.Unknown)
      (hnodup : fetch.Nodup) :
      ReachableNodup job_empty (render job_empty s done fetch)
  | evictLoaded (s : RendererState) (id : ChunkId) (hs : ReachableNodup job_empty s) :
      ReachableNodup job_empty { s with loaded_chunks := s.loaded_chunks.erase id }
  | evictEmpty (s : RendererState) (id : ChunkId) (hs : ReachableNodup job_empty s) :
      ReachableNodup job_empty { s with empty_chunks := s.empty_chunks.erase id }

/-- `MAX_IN_FLIGHT` of the spec glossary (the literal `8` in the submit
loop condition). -/
def MAX_IN_FLIGHT : ℕ := 8

lemma drainOne_pending (job_empty : ChunkId → Bool) (s : RendererState) (id : ChunkId) :
    (drainOne job_empty s id).pending_chunks = s.pending_chunks.erase id := by
  cases h : job_empty id <;> simp [drainOne, h]

lemma drainOne_in_flight (job_empty : ChunkId → Bool) (s : RendererState) (id : ChunkId) :
    (drainOne job_empty s id).in_flight = s.in_flight.erase id := by
  cases h : job_empty id <;> simp [drainOne, h]

lemma drainOne_loaded (job_empty : ChunkId → Bool) (s : RendererState) (id : ChunkId) :
    (drainOne job_empty s id).loaded_chunks =
      if job_empty id then s.loaded_chunks else insert id s.loaded_chunks := by
  cases h : job_empty id <;> simp [drainOne, h]

lemma drainOne_empty (job_empty : ChunkId → Bool) (s : RendererState) (id : ChunkId) :
    (drainOne job_empty s id).empty_chunks =
      if job_empty id then insert id s.empty_chunks else s.empty_chunks := by
  cases h : job_empty id <;> simp [drainOne, h]

lemma drainAll_pending_subset (job_empty : ChunkId → Bool) (done : List ChunkId) :
    ∀ s : RendererState, (drainAll job_empty s done).pending_chunks ⊆ s.pending_chunks := by
  induction done with
  | nil => intro s; exact fun a h => h
  | cons d rest ih =>
    intro s a ha
    have := ih (drainOne job_empty s d) ha
    rw [drainOne_pending] at this
    exact Finset.mem_of_mem_erase this

lemma drainAll_loaded_mem (job_empty : ChunkId → Bool) (done : List ChunkId) :
    ∀ (s : RendererState) (a : ChunkId),
      a ∈ (drainAll job_empty s done).loaded_chunks → a ∈ s.loaded_chunks ∨ a ∈ done := by
  induction done with
  | nil => intro s a h; exact Or.inl h
  | cons d rest ih =>
    intro s a ha
    rcases ih (drainOne job_empty s d) a ha with h | h
    · rw [drainOne_loaded] at h
      by_cases hje : job_empty d
      · rw [if_pos hje] at h
        exact Or.inl h
      · rw [if_neg hje] at h
        rcases Finset.mem_insert.mp h with h | h
        · exact Or.inr (h ▸ List.mem_cons_self d rest)
        · exact Or.inl h
    · exact Or.inr (List.mem_cons_of_mem d h)

lemma drainAll_empty_mem (job_empty : ChunkId → Bool) (done : List ChunkId) :
    ∀ (s : RendererState) (a : ChunkId),
      a ∈ (drainAll job_empty s done).empty_chunks → a ∈ s.empty_chunks ∨ a ∈ done := by
  induction done with
  | nil => intro s a h; exact Or.inl h
  | cons d rest ih =>
    intro s a ha
    rcases ih (drainOne job_empty s d) a ha with h | h
    · rw [drainOne_empty] at h
      by_cases hje : job_empty d
      · rw [if_pos hje] at h
        rcases Finset.mem_insert.mp h with h | h
        · exact Or.inr (h ▸ List.mem_cons_self d rest)
        · exact Or.inl h
      · rw [if_neg hje] at h
        exact Or.inl h
    · exact Or.inr (List.mem_cons_of_mem d h)

/-- The mutual-exclusion invariant of the cache stores, together with the
bookkeeping facts that make it inductive: every in-flight job id is in the
pending set, and no id has two jobs in flight at once. -/
def RendererInv (s : RendererState) : Prop :=
  (∀ a ∈ s.loaded_chunks, a ∉ s.empty_chunks ∧ a ∉ s.pending_chunks) ∧
  (∀ a ∈ s.empty_chunks, a ∉ s.pending_chunks) ∧
  (∀ a ∈ s.in_flight, a ∈ s.pending_chunks) ∧
  s.in_flight.Nodup

lemma drainOne_inv (job_empty : ChunkId → Bool) (s : RendererState) (id : ChunkId)
    (h : RendererInv s) (hid : id ∈ s.in_flight) : RendererInv (drainOne job_empty s id) := by
  obtain ⟨h1, h2, h3, h4⟩ := h
  have hidp : id ∈ s.pending_chunks := h3 id hid
  refine ⟨?_, ?_, ?_, ?_⟩
  · intro a ha
    rw [drainOne_loaded] at ha
    rw [drainOne_empty, drainOne_pending]
    by_cases hje : job_empty id
    · rw [if_pos hje] at ha
      rw [if_pos hje]
      have hane : a ∉ s.empty_chunks := (h1 a ha).1
      have hanp : a ∉ s.pending_chunks := (h1 a ha).2
      have hne : a ≠ id := fun he => hanp (he ▸ hidp)
      exact ⟨fun hmem => (Finset.mem_insert.mp hmem).elim hne hane,
             fun hmem => hanp (Finset.mem_of_mem_erase hmem)⟩
    · rw [if_neg hje] at ha
      rw [if_neg hje]
      rcases Finset.mem_insert.mp ha with rfl | ha
      · exact ⟨fun hmem => (h2 a hmem) hidp, Finset.not_mem_erase a _⟩
      · exact ⟨(h1 a ha).1, fun hmem => (h1 a ha).2 (Finset.mem_of_mem_erase hmem)⟩
  · intro a ha
    rw [drainOne_empty] at ha
    rw [drainOne_pending]
    by_cases hje : job_empty id
    · rw [if_pos hje] at ha
      rcases Finset.mem_insert.mp ha with rfl | ha
      · exact Finset.not_mem_erase a _
      · exact fun hmem => (h2 a ha) (Finset.mem_of_mem_erase hmem)
    · rw [if_neg hje] at ha
      exact fun hmem => (h2 a ha) (Finset.mem_of_mem_erase hmem)
  · intro a ha
    rw [drainOne_in_flight] at ha
    rw [drainOne_pending]
    have hmem := (h4.mem_erase_iff).mp ha
    exact Finset.mem_erase.mpr ⟨hmem.1, h3 a hmem.2⟩
  · rw [drainOne_in_flight]
    exact h4.erase id

lemma drainAll_inv (job_empty : ChunkId → Bool) (done : List ChunkId) :
    ∀ s : RendererState, RendererInv s → (done : Multiset ChunkId) ≤ s.in_flight →
      RendererInv (drainAll job_empty s done) := by
  induction done with
  | nil => intro s h _; exact h
  | cons d rest ih =>
    intro s h hle
    have hcons : (d ::ₘ (rest : Multiset ChunkId)) ≤ s.in_flight := by
      simpa using hle
    have hd : d ∈ s.in_flight := Multiset.mem_of_le hcons (Multiset.mem_cons_self d _)
    apply ih
    · exact drainOne_inv job_empty s d h hd
    · rw [drainOne_in_flight]
      have := Multiset.erase_le_erase d hcons
      rwa [Multiset.erase_cons_head] at this

lemma submitLoop_inv :
    ∀ (fetch : List ChunkId) (s : RendererState), RendererInv s → fetch.Nodup →
      (∀ a ∈ fetch, a ∉ s.loaded_chunks ∧ a ∉ s.empty_chunks ∧ a ∉ s.pending_chunks) →
      RendererInv (submitLoop s fetch) := by
  intro fetch
  induction fetch with
  | nil => intro s h _ _; exact h
  | cons id rest ih =>
    intro s h hnd hf
    obtain ⟨h1, h2, h3, h4⟩ := h
    obtain ⟨hid_l, hid_e, hid_p⟩ := hf id (List.mem_cons_self id rest)
    unfold submitLoop
    by_cases hcard : s.pending_chunks.card > 8
    · rw [if_pos hcard]
      exact ⟨h1, h2, h3, h4⟩
    · rw [if_neg hcard]
      apply ih
      · refine ⟨?_, ?_, ?_, ?_⟩
        · intro a ha
          refine ⟨(h1 a ha).1, ?_⟩
          intro hmem
          rcases Finset.mem_insert.mp hmem with rfl | hmem
          · exact hid_l ha
          · exact (h1 a ha).2 hmem
        · intro a ha hmem
          rcases Finset.mem_insert.mp hmem with rfl | hmem
          · exact hid_e ha
          · exact (h2 a ha) hmem
        · intro a ha
          rcases Multiset.mem_cons.mp ha with rfl | ha
          · exact Finset.mem_insert_self a _
          · exact Finset.mem_insert_of_mem (h3 a ha)
        · refine Multiset.nodup_cons.mpr ⟨?_, h4⟩
          intro hmem
          exact hid_p (h3 id hmem)
      · exact (List.nodup_cons.mp hnd).2
      · intro a ha
        obtain ⟨ha_l, ha_e, ha_p⟩ := hf a (List.mem_cons_of_mem id ha)
        refine ⟨ha_l, ha_e, ?_⟩
        intro hmem
        rcases Finset.mem_insert.mp hmem with rfl | hmem
        · exact (List.nodup_cons.mp hnd).1 ha
        · exact ha_p hmem

lemma get_chunk_state_unknown_iff (s : RendererState) (id : ChunkId) :
    get_chunk_state s id = ChunkState.Unknown ↔
      id ∉ s.loaded_chunks ∧ id ∉ s.empty_chunks ∧ id ∉ s.pending_chunks := by
  unfold get_chunk_state
  split_ifs with hl he hp <;> simp_all

lemma render_inv (job_empty : ChunkId → Bool) (s : RendererState)
    (done fetch : List ChunkId) (h : RendererInv s)
    (hdone : (done : Multiset ChunkId) ≤ s.in_flight)
    (hfetch : ∀ id ∈ fetch, get_chunk_state s id = ChunkState.Unknown)
    (hnodup : fetch.Nodup) :
    RendererInv (render job_empty s done fetch) := by
  unfold render
  have hinv1 := drainAll_inv job_empty done s h hdone
  apply submitLoop_inv fetch _ hinv1 hnodup
  intro a ha
  obtain ⟨ha_l, ha_e, ha_p⟩ := (get_chunk_state_unknown_iff s a).mp (hfetch a ha)
  have hnotdone : a ∉ done := by
    intro hmem
    have : a ∈ s.in_flight :=
      Multiset.mem_of_le hdone (by simpa using hmem)
    exact ha_p (h.2.2.1 a this)
  refine ⟨?_, ?_, ?_⟩
  · intro hmem
    rcases drainAll_loaded_mem job_empty done s a hmem with hmem | hmem
    · exact ha_l hmem
    · exact hnotdone hmem
  · intro hmem
    rcases drainAll_empty_mem job_empty done s a hmem with hmem | hmem
    · exact ha_e hmem
    · exact hnotdone hmem
  · intro hmem
    exact ha_p (drainAll_pending_subset job_empty done s hmem)

lemma inv_of_reachableNodup (job_empty : ChunkId → Bool) (s : RendererState)
    (h : ReachableNodup job_empty s) : RendererInv s := by
  induction h with
  | init => refine ⟨?_, ?_, ?_, ?_⟩ <;> simp [RendererInv]
  | render s done fetch draws hs hdone hdraw hfetch hnodup ih =>
    exact render_inv _ s done fetch ih hdone hfetch hnodup
  | evictLoaded s id hs ih =>
    obtain ⟨h1, h2, h3, h4⟩ := ih
    exact ⟨fun a ha => h1 a (Finset.mem_of_mem_erase ha), h2, h3, h4⟩
  | evictEmpty s id hs ih =>
    obtain ⟨h1, h2, h3, h4⟩ := ih
    exact ⟨fun a ha => ⟨fun hm => (h1 a ha).1 (Finset.mem_of_mem_erase hm), (h1 a ha).2⟩,
           fun a ha => h2 a (Finset.mem_of_mem_erase ha), h3, h4⟩

/-- The everywhere-false job-emptiness function: every meshed chunk has
vertices (as for a field whose iso-surface crosses every chunk). -/
def jobF : ChunkId → Bool := fun _ => false

/-- The renderer's initial state: both caches, the pending set and the
in-flight multiset empty. -/
def initialRendererState : RendererState := ⟨∅, ∅, ∅, 0⟩

/-- A concrete chunk id. -/
def cid0 : ChunkId := ⟨0, 0, 0, 0⟩

/-- Ten pairwise distinct chunk ids. -/
def fetchTen : List ChunkId := (List.range 10).map (fun k => ⟨(k : ℤ), 0, 0, 0⟩)

/-- C1 counterexample: from the initial state (reachable), with an empty
drain and ten distinct fetch ids that are all Unknown (so the entry
assertions of `render` pass), the pending set holds 9 > MAX_IN_FLIGHT = 8
entries after the submit step: the loop checks `pending_chunks.len() > 8`
before each submission, so it stops only after the pending set exceeds 8. -/
theorem pending_bound_counterexample :
    Reachable jobF initialRendererState ∧
    (fetchTen.all fun id =>
      decide (get_chunk_state initialRendererState id = ChunkState.Unknown)) = true ∧
    (render jobF initialRendererState [] fetchTen).pending_chunks.card = 9 ∧
    ¬ ((render jobF initialRendererState [] fetchTen).pending_chunks.card ≤ MAX_IN_FLIGHT) :=
  ⟨Reachable.init, by decide, by decide, by decide⟩

lemma submitLoop_card_le :
    ∀ (fetch : List ChunkId) (s : RendererState), s.pending_chunks.card ≤ 9 →
      (submitLoop s fetch).pending_chunks.card ≤ 9 := by
  intro fetch
  induction fetch with
  | nil => intro s h; exact h
  | cons id rest ih =>
    intro s h
    unfold submitLoop
    by_cases hcard : s.pending_chunks.card > 8
    · rw [if_pos hcard]
      exact h
    · rw [if_neg hcard]
      apply ih
      calc (insert id s.pending_chunks).card ≤ s.pending_chunks.card + 1 :=
            Finset.card_insert_le id s.pending_chunks
        _ ≤ 9 := by omega

/-- C1 amended: in every reachable state of the renderer -- in particular
right after the submit step of any frame -- the pending set holds at most
MAX_IN_FLIGHT + 1 = 9 entries.  (The submit loop tests the bound before
inserting, so it overshoots the cap by exactly one.) -/
theorem pending_le_max_in_flight_succ (job_empty : ChunkId → Bool) (s : RendererState)
    (h : Reachable job_empty s) : s.pending_chunks.card ≤ MAX_IN_FLIGHT + 1 := by
  show s.pending_chunks.card ≤ 9
  induction h with
  | init => simp [initialRendererState]
  | render s done fetch draws hs hdone hdraw hfetch ih =>
    unfold render
    apply submitLoop_card_le
    calc (drainAll job_empty s done).pending_chunks.card ≤ s.pending_chunks.card :=
          Finset.card_le_card (drainAll_pending_subset job_empty done s)
      _ ≤ 9 := ih
  | evictLoaded s id hs ih => exact ih
  | evictEmpty s id hs ih => exact ih

/-- Witness for the amended C1 at the initial state. -/
theorem pending_le_max_in_flight_succ_witness :
    initialRendererState.pending_chunks.card ≤ MAX_IN_FLIGHT + 1 :=
  pending_le_max_in_flight_succ jobF initialRendererState Reachable.init

/-- First frame of the C4 counterexample trace: the same Unknown id is
fetched twice in one frame (the octree emits one fetch id per node, and two
distinct nodes can quantize to the same ChunkId), so two jobs for it are
submitted to the pool. -/
def cexS1 : RendererState := render jobF initialRendererState [] [cid0, cid0]

/-- Second frame: the first job's result is drained; the chunk becomes
Available while the duplicate job is still in flight. -/
def cexS2 : RendererState := render jobF cexS1 [cid0] []

/-- LRU eviction of the chunk from the loaded cache: it becomes Unknown
again, with the duplicate job still in flight. -/
def cexS3 : RendererState := { cexS2 with loaded_chunks := cexS2.loaded_chunks.erase cid0 }

/-- Third frame: the duplicate job's result is drained (chunk becomes
Available) and, the id having been Unknown at frame entry, it is also
submitted again -- so it is simultaneously Available and Pending. -/
def cexS4 : RendererState := render jobF cexS3 [cid0] [cid0]

/-- C4 counterexample: a state reachable by the renderer's operations
(with every entry assertion of `render` satisfied) in which `cid0` is in
the loaded cache and in the pending set at once, so the four states are
not mutually exclusive and the assertion
`assert!(!self.pending_chunks.contains(chunk_id))` inside
`get_chunk_state` fails on the next query of `cid0`. -/
theorem chunk_state_assert_counterexample :
    Reachable jobF cexS4 ∧
    cid0 ∈ cexS4.loaded_chunks ∧
    cid0 ∈ cexS4.pending_chunks ∧
    get_chunk_state cexS4 cid0 = ChunkState.Available := by
  refine ⟨?_, by decide, by decide, by decide⟩
  have r1 : Reachable jobF cexS1 :=
    Reachable.render initialRendererState [] [cid0, cid0] [] Reachable.init
      (by decide) (by decide) (by decide)
  have r2 : Reachable jobF cexS2 :=
    Reachable.render cexS1 [cid0] [] [] r1 (by decide) (by decide) (by decide)
  have r3 : Reachable jobF cexS3 := Reachable.evictLoaded cexS2 cid0 r2
  exact Reachable.render cexS3 [cid0] [cid0] [] r3 (by decide) (by decide) (by decide)

/-- C4 amended: provided every fetch list passed to `render` has pairwise
distinct ids, then in every reachable state each ChunkId is in exactly one
of the four states: the `get_chunk_state` assertions hold (Available
implies neither Empty nor Pending, Empty implies not Pending), and the
returned state characterizes membership of the three stores exactly. -/
theorem chunk_state_exclusive (job_empty : ChunkId → Bool) (s : RendererState)
    (h : ReachableNodup job_empty s) (id : ChunkId) :
    (id ∈ s.loaded_chunks → id ∉ s.empty_chunks ∧ id ∉ s.pending_chunks) ∧
    (id ∈ s.empty_chunks → id ∉ s.pending_chunks) ∧
    (get_chunk_state s id = ChunkState.Available ↔ id ∈ s.loaded_chunks) ∧
    (get_chunk_state s id = ChunkState.Empty ↔ id ∈ s.empty_chunks) ∧
    (get_chunk_state s id = ChunkState.Pending ↔ id ∈ s.pending_chunks) ∧
    (get_chunk_state s id = ChunkState.Unknown ↔
      id ∉ s.loaded_chunks ∧ id ∉ s.empty_chunks ∧ id ∉ s.pending_chunks) := by
  obtain ⟨h1, h2, -, -⟩ := inv_of_reachableNodup job_empty s h
  have hl := fun hm => h1 id hm
  have he := fun hm => h2 id hm
  refine ⟨hl, he, ?_, ?_, ?_, ?_⟩ <;>
    · unfold get_chunk_state
      split_ifs with hA hB hC <;> simp_all

/-- Witness for the amended C4 at the initial state and `cid0`. -/
theorem chunk_state_exclusive_witness :
    get_chunk_state initialRendererState cid0 = ChunkState.Unknown ↔
      cid0 ∉ initialRendererState.loaded_chunks ∧
      cid0 ∉ initialRendererState.empty_chunks ∧
      cid0 ∉ initialRendererState.pending_chunks :=
  (chunk_state_exclusive jobF initialRendererState ReachableNodup.init cid0).2.2.2.2.2

/-! ## LOD octree (`src/src/gfx/lod.rs`, lines 107-304)

`Octree::rebuild` traverses a work queue over a flat node array; every node
pushed to the array is eventually processed exactly once, and a node's draw
flag is written only by its own processing step and by its parent (before
the node is processed).  The traversal is therefore faithfully expressed as
a recursion producing, for every node of the explored subtree, its ChunkId
and final draw flag.  The chunk cache is read-only during a rebuild (LRU
reordering aside) and is modelled as a function `ChunkId → ChunkState`.
`distance_to_cube` takes a square root, which `ℚ` lacks; the comparison
`distance > size` is modelled by the equivalent (for the non-negative sizes
used) comparison of squares. -/

/-- Squared form of `distance_to_cube` (lines 298-304): componentwise
`max(max(cube - query, 0), query - cube - size)`, squared and summed. -/
def distance_to_cube_sq (cube_position : Vec3) (size : ℚ) (query : Vec3) : ℚ :=
  let dx := max (max (cube_position.x - query.x) 0) (query.x - cube_position.x - size)
  let dy := max (max (cube_position.y - query.y) 0) (query.y - cube_position.y - size)
  let dz := max (max (cube_position.z - query.z) 0) (query.z - cube_position.z - size)
  dx * dx + dy * dy + dz * dz

/-- `OCTREE_OFFSETS` (lines 289-296), in source order. -/
def OCTREE_OFFSETS : List (ℚ × ℚ × ℚ) :=
  [(0, 0, 0), (0, 0, 1), (0, 1, 0), (1, 0, 0), (0, 1, 1), (1, 0, 1), (1, 1, 0), (1, 1, 1)]

/-- `make_position` inside `Octree::children_positions` (lines 221-237). -/
def make_position (position : Vec3) (child_size : ℚ) (offset : ℚ × ℚ × ℚ) : Vec3 :=
  ⟨position.x + child_size * offset.1,
   position.y + child_size * offset.2.1,
   position.z + child_size * offset.2.2⟩

/-- Does the cache hold the chunk as Available or Empty?  (the negation of
`missing_child` in `Octree::extend_node`). -/
def avail_or_empty (cache : ChunkId → ChunkState) (id : ChunkId) : Bool :=
  decide (cache id = ChunkState.Available ∨ cache id = ChunkState.Empty)

/-- `Octree::extend_node` (lines 153-206), as a recursion over the explored
subtree.  Returns the (ChunkId, final draw flag) pairs of every node the
traversal creates at or below the given node; `draw` is the node's draw
flag when it is popped from the work queue (the root starts `true`; a child
starts with the `draw_children` flag its parent computed).  A node that is
not Available gets its flag cleared and is not subdivided; an Available
node at `max_level` or farther from the focus than its size is a drawn
leaf; otherwise the eight children are created in `OCTREE_OFFSETS` order
and, if the parent was drawable and no child is missing (neither Available
nor Empty), the finer level supersedes the parent. -/
def extend_node (max_level : ℕ) (focus : Vec3) (cache : ChunkId → ChunkState)
    (level : ℕ) (position : Vec3) (size : ℚ) (draw : Bool) : List (ChunkId × Bool) :=
  let chunk_id := ChunkId.new position size
  if cache chunk_id ≠ ChunkState.Available then
    [(chunk_id, false)]
  else if hleaf : max_level ≤ level ∨
      distance_to_cube_sq position size focus > size * size then
    [(chunk_id, draw)]
  else
    let child_size := size / 2
    let c0 := make_position position child_size (0, 0, 0)
    let c1 := make_position position child_size (0, 0, 1)
    let c2 := make_position position child_size (0, 1, 0)
    let c3 := make_position position child_size (1, 0, 0)
    let c4 := make_position position child_size (0, 1, 1)
    let c5 := make_position position child_size (1, 0, 1)
    let c6 := make_position position child_size (1, 1, 0)
    let c7 := make_position position child_size (1, 1, 1)
    let draw_children := draw &&
      [c0, c1, c2, c3, c4, c5, c6, c7].all
        (fun c => avail_or_empty cache (ChunkId.new c child_size))
    (chunk_id, if draw_children then false else draw) ::
      (extend_node max_level focus cache (level + 1) c0 child_size draw_children ++
       extend_node max_level focus cache (level + 1) c1 child_size draw_children ++
       extend_node max_level focus cache (level + 1) c2 child_size draw_children ++
       extend_node max_level focus cache (level + 1) c3 child_size draw_children ++
       extend_node max_level focus cache (level + 1) c4 child_size draw_children ++
       extend_node max_level focus cache (level + 1) c5 child_size draw_children ++
       extend_node max_level focus cache (level + 1) c6 child_size draw_children ++
       extend_node max_level focus cache (level + 1) c7 child_size draw_children)
termination_by max_level - level
decreasing_by all_goals (simp at hleaf; omega)

/-- `Octree::rebuild` (lines 123-151): run the traversal from the root
(whose initial draw flag is `true`), then emit every node with a set draw
flag into the draw list and every node whose cache state is Unknown into
the fetch list. -/
def rebuild (max_level : ℕ) (focus : Vec3) (cache : ChunkId → ChunkState)
    (root_position : Vec3) (root_size : ℚ) : List ChunkId × List ChunkId :=
  let nodes := extend_node max_level focus cache 0 root_position root_size true
  ((nodes.filter (fun n => n.2)).map Prod.fst,
   (nodes.filter (fun n => decide (cache n.1 = ChunkState.Unknown))).map Prod.fst)

lemma extend_node_draw_available (max_level : ℕ) (focus : Vec3)
    (cache : ChunkId → ChunkState) :
    ∀ (k level : ℕ), max_level - level ≤ k →
      ∀ (position : Vec3) (size : ℚ) (draw : Bool) (id : ChunkId) (b : Bool),
        (id, b) ∈ extend_node max_level focus cache level position size draw →
        b = true → cache id = ChunkState.Available := by
  intro k
  induction k with
  | zero =>
    intro level hk position size draw id b hmem hb
    rw [extend_node] at hmem
    have hlev : max_level ≤ level := by omega
    by_cases hav : cache (ChunkId.new position size) ≠ ChunkState.Available
    · rw [if_pos hav] at hmem
      simp at hmem
      subst hb
      exact absurd hmem.2.symm (by simp)
    · rw [if_neg hav, dif_pos (Or.inl hlev)] at hmem
      simp at hmem
      obtain ⟨rfl, rfl⟩ := hmem
      exact not_not.mp hav
  | succ k ih =>
    intro level hk position size draw id b hmem hb
    rw [extend_node] at hmem
    by_cases hav : cache (ChunkId.new position size) ≠ ChunkState.Available
    · rw [if_pos hav] at hmem
      simp at hmem
      subst hb
      exact absurd hmem.2.symm (by simp)
    · rw [if_neg hav] at hmem
      by_cases hleaf : max_level ≤ level ∨
          distance_to_cube_sq position size focus > size * size
      · rw [dif_pos hleaf] at hmem
        simp at hmem
        obtain ⟨rfl, rfl⟩ := hmem
        exact not_not.mp hav
      · rw [dif_neg hleaf] at hmem
        have hlev : ¬ max_level ≤ level := fun h => hleaf (Or.inl h)
        have hk2 : max_level - (level + 1) ≤ k := by omega
        rcases List.mem_cons.mp hmem with hhead | htail
        · have hb2 : b = (if _ then false else draw) := congrArg Prod.snd hhead
          have hid : id = ChunkId.new position size := congrArg Prod.fst hhead
          subst hid
          exact not_not.mp hav
        · simp only [List.mem_append] at htail
          rcases htail with ((((((h | h) | h) | h) | h) | h) | h) | h <;>
            exact ih (level + 1) hk2 _ _ _ id b h hb

/-- C2: for every octree rebuild -- any maximum level, focus position and
cache contents -- every ChunkId in the emitted draw set is Available in
the cache, every ChunkId in the emitted fetch set is Unknown, and the two
sets are disjoint. -/
theorem rebuild_draw_available_fetch_unknown (max_level : ℕ) (focus : Vec3)
    (cache : ChunkId → ChunkState) (root_position : Vec3) (root_size : ℚ) :
    (∀ id ∈ (rebuild max_level focus cache root_position root_size).1,
        cache id = ChunkState.Available) ∧
    (∀ id ∈ (rebuild max_level focus cache root_position root_size).2,
        cache id = ChunkState.Unknown) ∧
    (∀ id ∈ (rebuild max_level focus cache root_position root_size).1,
        id ∉ (rebuild max_level focus cache root_position root_size).2) := by
  have hdraw : ∀ id ∈ (rebuild max_level focus cache root_position root_size).1,
      cache id = ChunkState.Available := by
    intro id hid
    unfold rebuild at hid
    simp only [List.mem_map, List.mem_filter] at hid
    obtain ⟨⟨id2, b⟩, ⟨hmem, hb⟩, rfl⟩ := hid
    exact extend_node_draw_available max_level focus cache max_level 0 (by omega)
      root_position root_size true id2 b hmem (by simpa using hb)
  have hfetch : ∀ id ∈ (rebuild max_level focus cache root_position root_size).2,
      cache id = ChunkState.Unknown := by
    intro id hid
    unfold rebuild at hid
    simp only [List.mem_map, List.mem_filter] at hid
    obtain ⟨⟨id2, b⟩, ⟨hmem, hb⟩, rfl⟩ := hid
    simpa using hb
  refine ⟨hdraw, hfetch, ?_⟩
  intro id hid hmem
  have h1 := hdraw id hid
  have h2 := hfetch id hmem
  rw [h1] at h2
  exact absurd h2 (by simp)

/-! ## Marching cubes grid traversal (`src/src/marching_cubes.rs`, lines 7-254)

The three nested `while` loops each start at the corresponding `min`
coordinate and advance by `step` while `coordinate + step < max`.  The loop
values are produced by `coords`, defined with an explicit fuel that is
large enough whenever `step > 0`; `coords_unfold` proves that it satisfies
exactly the source loop's unfolding equation in that case.  (For
`step ≤ 0` with `min + step < max` the source loop would not terminate and
produce no mesh; the model returns the empty list of loop values.) -/

def coordsGo (mx step : ℚ) : ℕ → ℚ → List ℚ
  | 0, _ => []
  | fuel + 1, x => if x + step < mx then x :: coordsGo mx step fuel (x + step) else []

def coordsFuel (mn mx step : ℚ) : ℕ :=
  if 0 < step then (⌈(mx - mn) / step⌉).toNat + 1 else 0

/-- The values taken by one grid loop running from `mn` while
`x + step < mx`. -/
def coords (mn mx step : ℚ) : List ℚ :=
  coordsGo mx step (coordsFuel mn mx step) mn

lemma coordsGo_fuel_irrelevant (mx step : ℚ) (hs : 0 < step) :
    ∀ (f : ℕ), ∀ (g : ℕ) (x : ℚ), (⌈(mx - x) / step⌉).toNat + 1 ≤ f →
      (⌈(mx - x) / step⌉).toNat + 1 ≤ g → coordsGo mx step f x = coordsGo mx step g x := by
  intro f
  induction f with
  | zero => intro g x hf _; omega
  | succ f ih =>
    intro g x hf hg
    cases g with
    | zero => omega
    | succ g =>
      simp only [coordsGo]
      by_cases hguard : x + step < mx
      · rw [if_pos hguard, if_pos hguard]
        congr 1
        have key : (⌈(mx - (x + step)) / step⌉).toNat + 1 = (⌈(mx - x) / step⌉).toNat := by
          have e1 : (mx - (x + step)) / step = (mx - x) / step - 1 := by
            field_simp
            ring
          have e2 : ⌈(mx - x) / step - 1⌉ = ⌈(mx - x) / step⌉ - 1 := by
            exact_mod_cast Int.ceil_sub_int ((mx - x) / step) 1
          have e3 : (1 : ℤ) < ⌈(mx - x) / step⌉ := by
            rw [Int.lt_ceil]
            push_cast
            rw [lt_div_iff hs]
            linarith
          rw [e1, e2]
          omega
        exact ih (g) (x + step) (by omega) (by omega)
      · rw [if_neg hguard, if_neg hguard]

/-- Faithfulness of `coords` to the source loop: for `step > 0` it
satisfies the loop's unfolding equation. -/
lemma coords_unfold (mn mx step : ℚ) (hs : 0 < step) :
    coords mn mx step = if mn + step < mx then mn :: coords (mn + step) mx step else [] := by
  have lhs : coords mn mx step =
      coordsGo mx step ((⌈(mx - mn) / step⌉).toNat + 1) mn := by
    unfold coords coordsFuel
    rw [if_pos hs]
  rw [lhs]
  rw [show coordsGo mx step ((⌈(mx - mn) / step⌉).toNat + 1) mn =
        if mn + step < mx then
          mn :: coordsGo mx step ((⌈(mx - mn) / step⌉).toNat) (mn + step)
        else [] from rfl]
  by_cases hguard : mn + step < mx
  · rw [if_pos hguard, if_pos hguard]
    congr 1
    have rhs : coords (mn + step) mx step =
        coordsGo mx step ((⌈(mx - (mn + step)) / step⌉).toNat + 1) (mn + step) := by
      unfold coords coordsFuel
      rw [if_pos hs]
    rw [rhs]
    apply coordsGo_fuel_irrelevant mx step hs
    · have e1 : (mx - (mn + step)) / step = (mx - mn) / step - 1 := by
        field_simp
        ring
      have e2 : ⌈(mx - mn) / step - 1⌉ = ⌈(mx - mn) / step⌉ - 1 := by
        exact_mod_cast Int.ceil_sub_int ((mx - mn) / step) 1
      have e3 : (1 : ℤ) < ⌈(mx - mn) / step⌉ := by
        rw [Int.lt_ceil]
        push_cast
        rw [lt_div_iff hs]
        linarith
      rw [e1, e2]
      omega
    · omega
  · rw [if_neg hguard, if_neg hguard]

lemma mem_coordsGo (mx step : ℚ) (hs : 0 ≤ step) :
    ∀ (fuel : ℕ) (x y : ℚ), y ∈ coordsGo mx step fuel x → x ≤ y ∧ y + step < mx := by
  intro fuel
  induction fuel with
  | zero => intro x y h; simp [coordsGo] at h
  | succ fuel ih =>
    intro x y h
    simp only [coordsGo] at h
    by_cases hguard : x + step < mx
    · rw [if_pos hguard] at h
      rcases List.mem_cons.mp h with rfl | h
      · exact ⟨le_refl y, hguard⟩
      · obtain ⟨h1, h2⟩ := ih (x + step) y h
        exact ⟨by linarith, h2⟩
    · rw [if_neg hguard] at h
      simp at h

/-- Every loop value lies in `[mn, mx - step)` (the loop guard). -/
lemma mem_coords (mn mx step y : ℚ) (hs : 0 ≤ step) (h : y ∈ coords mn mx step) :
    mn ≤ y ∧ y + step < mx :=
  mem_coordsGo mx step hs (coordsFuel mn mx step) mn y h

/-! ## Marching cubes tables and cell processing -/

/-- `EDGE_TABLE` (lines 415-435): 256 twelve-bit edge masks. -/
def EDGE_TABLE : List ℕ :=
  [0x000, 0x109, 0x203, 0x30a, 0x406, 0x50f, 0x605, 0x70c, 0x80c, 0x905, 0xa0f, 0xb06, 0xc0a, 0xd03, 0xe09, 0xf00,
   0x190, 0x099, 0x393, 0x29a, 0x596, 0x49f, 0x795, 0x69c, 0x99c, 0x895, 0xb9f, 0xa96, 0xd9a, 0xc93, 0xf99, 0xe90,
   0x230, 0x339, 0x033, 0x13a, 0x636, 0x73f, 0x435, 0x53c, 0xa3c, 0xb35, 0x83f, 0x936, 0xe3a, 0xf33, 0xc39, 0xd30,
   0x3a0, 0x2a9, 0x1a3, 0x0aa, 0x7a6, 0x6af, 0x5a5, 0x4ac, 0xbac, 0xaa5, 0x9af, 0x8a6, 0xfaa, 0xea3, 0xda9, 0xca0,
   0x460, 0x569, 0x663, 0x76a, 0x066, 0x16f, 0x265, 0x36c, 0xc6c, 0xd65, 0xe6f, 0xf66, 0x86a, 0x963, 0xa69, 0xb60,
   0x5f0, 0x4f9, 0x7f3, 0x6fa, 0x1f6, 0x0ff, 0x3f5, 0x2fc, 0xdfc, 0xcf5, 0xfff, 0xef6, 0x9fa, 0x8f3, 0xbf9, 0xaf0,
   0x650, 0x759, 0x453, 0x55a, 0x256, 0x35f, 0x055, 0x15c, 0xe5c, 0xf55, 0xc5f, 0xd56, 0xa5a, 0xb53, 0x859, 0x950,
   0x7c0, 0x6c9, 0x5c3, 0x4ca, 0x3c6, 0x2cf, 0x1c5, 0x0cc, 0xfcc, 0xec5, 0xdcf, 0xcc6, 0xbca, 0xac3, 0x9c9, 0x8c0,
   0x8c0, 0x9c9, 0xac3, 0xbca, 0xcc6, 0xdcf, 0xec5, 0xfcc, 0x0cc, 0x1c5, 0x2cf, 0x3c6, 0x4ca, 0x5c3, 0x6c9, 0x7c0,
   0x950, 0x859, 0xb53, 0xa5a, 0xd56, 0xc5f, 0xf55, 0xe5c, 0x15c, 0x055, 0x35f, 0x256, 0x55a, 0x453, 0x759, 0x650,
   0xaf0, 0xbf9, 0x8f3, 0x9fa, 0xef6, 0xfff, 0xcf5, 0xdfc, 0x2fc, 0x3f5, 0x0ff, 0x1f6, 0x6fa, 0x7f3, 0x4f9, 0x5f0,
   0xb60, 0xa69, 0x963, 0x86a, 0xf66, 0xe6f, 0xd65, 0xc6c, 0x36c, 0x265, 0x16f, 0x066, 0x76a, 0x663, 0x569, 0x460,
   0xca0, 0xda9, 0xea3, 0xfaa, 0x8a6, 0x9af, 0xaa5, 0xbac, 0x4ac, 0x5a5, 0x6af, 0x7a6, 0x0aa, 0x1a3, 0x2a9, 0x3a0,
   0xd30, 0xc39, 0xf33, 0xe3a, 0x936, 0x83f, 0xb35, 0xa3c, 0x53c, 0x435, 0x73f, 0x636, 0x13a, 0x033, 0x339, 0x230,
   0xe90, 0xf99, 0xc93, 0xd9a, 0xa96, 0xb9f, 0x895, 0x99c, 0x69c, 0x795, 0x49f, 0x596, 0x29a, 0x393, 0x099, 0x190,
   0xf00, 0xe09, 0xd03, 0xc0a, 0xb06, 0xa0f, 0x905, 0x80c, 0x70c, 0x605, 0x50f, 0x406, 0x30a, 0x203, 0x109, 0x000]

def TRI_ROWS_0 : List (List ℤ) :=
  [[-1, -1, -1, -1, -1, -1, -1, -1, -1, -1, -1, -1, -1, -1, -1, -1],
   [0, 8, 3, -1, -1, -1, -1, -1, -1, -1, -1, -1, -1, -1, -1, -1],
   [0, 1, 9, -1, -1, -1, -1, -1, -1, -1, -1, -1, -1, -1, -1, -1],
   [1, 8, 3, 9, 8, 1, -1, -1, -1, -1, -1, -1, -1, -1, -1, -1],
   [1, 2, 10, -1, -1, -1, -1, -1, -1, -1, -1, -1, -1, -1, -1, -1],
   [0, 8, 3, 1, 2, 10, -1, -1, -1, -1, -1, -1, -1, -1, -1, -1],
   [9, 2, 10, 0, 2, 9, -1, -1, -1, -1, -1, -1, -1, -1, -1, -1],
   [2, 8, 3, 2, 10, 8, 10, 9, 8, -1, -1, -1, -1, -1, -1, -1],
   [3, 11, 2, -1, -1, -1, -1, -1, -1, -1, -1, -1, -1, -1, -1, -1],
   [0, 11, 2, 8, 11, 0, -1, -1, -1, -1, -1, -1, -1, -1, -1, -1],
   [1, 9, 0, 2, 3, 11, -1, -1, -1, -1, -1, -1, -1, -1, -1, -1],
   [1, 11, 2, 1, 9, 11, 9, 8, 11, -1, -1, -1, -1, -1, -1, -1],
   [3, 10, 1, 11, 10, 3, -1, -1, -1, -1, -1, -1, -1, -1, -1, -1],
   [0, 10, 1, 0, 8, 10, 8, 11, 10, -1, -1, -1, -1, -1, -1, -1],
   [3, 9, 0, 3, 11, 9, 11, 10, 9, -1, -1, -1, -1, -1, -1, -1],
   [9, 8, 10, 10, 8, 11, -1, -1, -1, -1, -1, -1, -1, -1, -1, -1]]

def TRI_ROWS_1 : List (List ℤ) :=
  [[4, 7, 8, -1, -1, -1, -1, -1, -1, -1, -1, -1, -1, -1, -1, -1],
   [4, 3, 0, 7, 3, 4, -1, -1, -1, -1, -1, -1, -1, -1, -1, -1],
   [0, 1, 9, 8, 4, 7, -1, -1, -1, -1, -1, -1, -1, -1, -1, -1],
   [4, 1, 9, 4, 7, 1, 7, 3, 1, -1, -1, -1, -1, -1, -1, -1],
   [1, 2, 10, 8, 4, 7, -1, -1, -1, -1, -1, -1, -1, -1, -1, -1],
   [3, 4, 7, 3, 0, 4, 1, 2, 10, -1, -1, -1, -1, -1, -1, -1],
   [9, 2, 10, 9, 0, 2, 8, 4, 7, -1, -1, -1, -1, -1, -1, -1],
   [2, 10, 9, 2, 9, 7, 2, 7, 3, 7, 9, 4, -1, -1, -1, -1],
   [8, 4, 7, 3, 11, 2, -1, -1, -1, -1, -1, -1, -1, -1, -1, -1],
   [11, 4, 7, 11, 2, 4, 2, 0, 4, -1, -1, -1, -1, -1, -1, -1],
   [9, 0, 1, 8, 4, 7, 2, 3, 11, -1, -1, -1, -1, -1, -1, -1],
   [4, 7, 11, 9, 4, 11, 9, 11, 2, 9, 2, 1, -1, -1, -1, -1],
   [3, 10, 1, 3, 11, 10, 7, 8, 4, -1, -1, -1, -1, -1, -1, -1],
   [1, 11, 10, 1, 4, 11, 1, 0, 4, 7, 11, 4, -1, -1, -1, -1],
   [4, 7, 8, 9, 0, 11, 9, 11, 10, 11, 0, 3, -1, -1, -1, -1],
   [4, 7, 11, 4, 11, 9, 9, 11, 10, -1, -1, -1, -1, -1, -1, -1]]

def TRI_ROWS_2 : List (List ℤ) :=
  [[9, 5, 4, -1, -1, -1, -1, -1, -1, -1, -1, -1, -1, -1, -1, -1],
   [9, 5, 4, 0, 8, 3, -1, -1, -1, -1, -1, -1, -1, -1, -1, -1],
   [0, 5, 4, 1, 5, 0, -1, -1, -1, -1, -1, -1, -1, -1, -1, -1],
   [8, 5, 4, 8, 3, 5, 3, 1, 5, -1, -1, -1, -1, -1, -1, -1],
   [1, 2, 10, 9, 5, 4, -1, -1, -1, -1, -1, -1, -1, -1, -1, -1],
   [3, 0, 8, 1, 2, 10, 4, 9, 5, -1, -1, -1, -1, -1, -1, -1],
   [5, 2, 10, 5, 4, 2, 4, 0, 2, -1, -1, -1, -1, -1, -1, -1],
   [2, 10, 5, 3, 2, 5, 3, 5, 4, 3, 4, 8, -1, -1, -1, -1],
   [9, 5, 4, 2, 3, 11, -1, -1, -1, -1, -1, -1, -1, -1, -1, -1],
   [0, 11, 2, 0, 8, 11, 4, 9, 5, -1, -1, -1, -1, -1, -1, -1],
   [0, 5, 4, 0, 1, 5, 2, 3, 11, -1, -1, -1, -1, -1, -1, -1],
   [2, 1, 5, 2, 5, 8, 2, 8, 11, 4, 8, 5, -1, -1, -1, -1],
   [10, 3, 11, 10, 1, 3, 9, 5, 4, -1, -1, -1, -1, -1, -1, -1],
   [4, 9, 5, 0, 8, 1, 8, 10, 1, 8, 11, 10, -1, -1, -1, -1],
   [5, 4, 0, 5, 0, 11, 5, 11, 10, 11, 0, 3, -1, -1, -1, -1],
   [5, 4, 8, 5, 8, 10, 10, 8, 11, -1, -1, -1, -1, -1, -1, -1]]

def TRI_ROWS_3 : List (List ℤ) :=
  [[9, 7, 8, 5, 7, 9, -1, -1, -1, -1, -1, -1, -1, -1, -1, -1],
   [9, 3, 0, 9, 5, 3, 5, 7, 3, -1, -1, -1, -1, -1, -1, -1],
   [0, 7, 8, 0, 1, 7, 1, 5, 7, -1, -1, -1, -1, -1, -1, -1],
   [1, 5, 3, 3, 5, 7, -1, -1, -1, -1, -1, -1, -1, -1, -1, -1],
   [9, 7, 8, 9, 5, 7, 10, 1, 2, -1, -1, -1, -1, -1, -1, -1],
   [10, 1, 2, 9, 5, 0, 5, 3, 0, 5, 7, 3, -1, -1, -1, -1],
   [8, 0, 2, 8, 2, 5, 8, 5, 7, 10, 5, 2, -1, -1, -1, -1],
   [2, 10, 5, 2, 5, 3, 3, 5, 7, -1, -1, -1, -1, -1, -1, -1],
   [7, 9, 5, 7, 8, 9, 3, 11, 2, -1, -1, -1, -1, -1, -1, -1],
   [9, 5, 7, 9, 7, 2, 9, 2, 0, 2, 7, 11, -1, -1, -1, -1],
   [2, 3, 11, 0, 1, 8, 1, 7, 8, 1, 5, 7, -1, -1, -1, -1],
   [11, 2, 1, 11, 1, 7, 7, 1, 5, -1, -1, -1, -1, -1, -1, -1],
   [9, 5, 8, 8, 5, 7, 10, 1, 3, 10, 3, 11, -1, -1, -1, -1],
   [5, 7, 0, 5, 0, 9, 7, 11, 0, 1, 0, 10, 11, 10, 0, -1],
   [11, 10, 0, 11, 0, 3, 10, 5, 0, 8, 0, 7, 5, 7, 0, -1],
   [11, 10, 5, 7, 11, 5, -1, -1, -1, -1, -1, -1, -1, -1, -1, -1]]

def TRI_ROWS_4 : List (List ℤ) :=
  [[10, 6, 5, -1, -1, -1, -1, -1, -1, -1, -1, -1, -1, -1, -1, -1],
   [0, 8, 3, 5, 10, 6, -1, -1, -1, -1, -1, -1, -1, -1, -1, -1],
   [9, 0, 1, 5, 10, 6, -1, -1, -1, -1, -1, -1, -1, -1, -1, -1],
   [1, 8, 3, 1, 9, 8, 5, 10, 6, -1, -1, -1, -1, -1, -1, -1],
   [1, 6, 5, 2, 6, 1, -1, -1, -1, -1, -1, -1, -1, -1, -1, -1],
   [1, 6, 5, 1, 2, 6, 3, 0, 8, -1, -1, -1, -1, -1, -1, -1],
   [9, 6, 5, 9, 0, 6, 0, 2, 6, -1, -1, -1, -1, -1, -1, -1],
   [5, 9, 8, 5, 8, 2, 5, 2, 6, 3, 2, 8, -1, -1, -1, -1],
   [2, 3, 11, 10, 6, 5, -1, -1, -1, -1, -1, -1, -1, -1, -1, -1],
   [11, 0, 8, 11, 2, 0, 10, 6, 5, -1, -1, -1, -1, -1, -1, -1],
   [0, 1, 9, 2, 3, 11, 5, 10, 6, -1, -1, -1, -1, -1, -1, -1],
   [5, 10, 6, 1, 9, 2, 9, 11, 2, 9, 8, 11, -1, -1, -1, -1],
   [6, 3, 11, 6, 5, 3, 5, 1, 3, -1, -1, -1, -1, -1, -1, -1],
   [0, 8, 11, 0, 11, 5, 0, 5, 1, 5, 11, 6, -1, -1, -1, -1],
   [3, 11, 6, 0, 3, 6, 0, 6, 5, 0, 5, 9, -1, -1, -1, -1],
   [6, 5, 9, 6, 9, 11, 11, 9, 8, -1, -1, -1, -1, -1, -1, -1]]

def TRI_ROWS_5 : List (List ℤ) :=
  [[5, 10, 6, 4, 7, 8, -1, -1, -1, -1, -1, -1, -1, -1, -1, -1],
   [4, 3, 0, 4, 7, 3, 6, 5, 10, -1, -1, -1, -1, -1, -1, -1],
   [1, 9, 0, 5, 10, 6, 8, 4, 7, -1, -1, -1, -1, -1, -1, -1],
   [10, 6, 5, 1, 9, 7, 1, 7, 3, 7, 9, 4, -1, -1, -1, -1],
   [6, 1, 2, 6, 5, 1, 4, 7, 8, -1, -1, -1, -1, -1, -1, -1],
   [1, 2, 5, 5, 2, 6, 3, 0, 4, 3, 4, 7, -1, -1, -1, -1],
   [8, 4, 7, 9, 0, 5, 0, 6, 5, 0, 2, 6, -1, -1, -1, -1],
   [7, 3, 9, 7, 9, 4, 3, 2, 9, 5, 9, 6, 2, 6, 9, -1],
   [3, 11, 2, 7, 8, 4, 10, 6, 5, -1, -1, -1, -1, -1, -1, -1],
   [5, 10, 6, 4, 7, 2, 4, 2, 0, 2, 7, 11, -1, -1, -1, -1],
   [0, 1, 9, 4, 7, 8, 2, 3, 11, 5, 10, 6, -1, -1, -1, -1],
   [9, 2, 1, 9, 11, 2, 9, 4, 11, 7, 11, 4, 5, 10, 6, -1],
   [8, 4, 7, 3, 11, 5, 3, 5, 1, 5, 11, 6, -1, -1, -1, -1],
   [5, 1, 11, 5, 11, 6, 1, 0, 11, 7, 11, 4, 0, 4, 11, -1],
   [0, 5, 9, 0, 6, 5, 0, 3, 6, 11, 6, 3, 8, 4, 7, -1],
   [6, 5, 9, 6, 9, 11, 4, 7, 9, 7, 11, 9, -1, -1, -1, -1]]

def TRI_ROWS_6 : List (List ℤ) :=
  [[10, 4, 9, 6, 4, 10, -1, -1, -1, -1, -1, -1, -1, -1, -1, -1],
   [4, 10, 6, 4, 9, 10, 0, 8, 3, -1, -1, -1, -1, -1, -1, -1],
   [10, 0, 1, 10, 6, 0, 6, 4, 0, -1, -1, -1, -1, -1, -1, -1],
   [8, 3, 1, 8, 1, 6, 8, 6, 4, 6, 1, 10, -1, -1, -1, -1],
   [1, 4, 9, 1, 2, 4, 2, 6, 4, -1, -1, -1, -1, -1, -1, -1],
   [3, 0, 8, 1, 2, 9, 2, 4, 9, 2, 6, 4, -1, -1, -1, -1],
   [0, 2, 4, 4, 2, 6, -1, -1, -1, -1, -1, -1, -1, -1, -1, -1],
   [8, 3, 2, 8, 2, 4, 4, 2, 6, -1, -1, -1, -1, -1, -1, -1],
   [10, 4, 9, 10, 6, 4, 11, 2, 3, -1, -1, -1, -1, -1, -1, -1],
   [0, 8, 2, 2, 8, 11, 4, 9, 10, 4, 10, 6, -1, -1, -1, -1],
   [3, 11, 2, 0, 1, 6, 0, 6, 4, 6, 1, 10, -1, -1, -1, -1],
   [6, 4, 1, 6, 1, 10, 4, 8, 1, 2, 1, 11, 8, 11, 1, -1],
   [9, 6, 4, 9, 3, 6, 9, 1, 3, 11, 6, 3, -1, -1, -1, -1],
   [8, 11, 1, 8, 1, 0, 11, 6, 1, 9, 1, 4, 6, 4, 1, -1],
   [3, 11, 6, 3, 6, 0, 0, 6, 4, -1, -1, -1, -1, -1, -1, -1],
   [6, 4, 8, 11, 6, 8, -1, -1, -1, -1, -1, -1, -1, -1, -1, -1]]

def TRI_ROWS_7 : List (List ℤ) :=
  [[7, 10, 6, 7, 8, 10, 8, 9, 10, -1, -1, -1, -1, -1, -1, -1],
   [0, 7, 3, 0, 10, 7, 0, 9, 10, 6, 7, 10, -1, -1, -1, -1],
   [10, 6, 7, 1, 10, 7, 1, 7, 8, 1, 8, 0, -1, -1, -1, -1],
   [10, 6, 7, 10, 7, 1, 1, 7, 3, -1, -1, -1, -1, -1, -1, -1],
   [1, 2, 6, 1, 6, 8, 1, 8, 9, 8, 6, 7, -1, -1, -1, -1],
   [2, 6, 9, 2, 9, 1, 6, 7, 9, 0, 9, 3, 7, 3, 9, -1],
   [7, 8, 0, 7, 0, 6, 6, 0, 2, -1, -1, -1, -1, -1, -1, -1],
   [7, 3, 2, 6, 7, 2, -1, -1, -1, -1, -1, -1, -1, -1, -1, -1],
   [2, 3, 11, 10, 6, 8, 10, 8, 9, 8, 6, 7, -1, -1, -1, -1],
   [2, 0, 7, 2, 7, 11, 0, 9, 7, 6, 7, 10, 9, 10, 7, -1],
   [1, 8, 0, 1, 7, 8, 1, 10, 7, 6, 7, 10, 2, 3, 11, -1],
   [11, 2, 1, 11, 1, 7, 10, 6, 1, 6, 7, 1, -1, -1, -1, -1],
   [8, 9, 6, 8, 6, 7, 9, 1, 6, 11, 6, 3, 1, 3, 6, -1],
   [0, 9, 1, 11, 6, 7, -1, -1, -1, -1, -1, -1, -1, -1, -1, -1],
   [7, 8, 0, 7, 0, 6, 3, 11, 0, 11, 6, 0, -1, -1, -1, -1],
   [7, 11, 6, -1, -1, -1, -1, -1, -1, -1, -1, -1, -1, -1, -1, -1]]

def TRI_ROWS_8 : List (List ℤ) :=
  [[7, 6, 11, -1, -1, -1, -1, -1, -1, -1, -1, -1, -1, -1, -1, -1],
   [3, 0, 8, 11, 7, 6, -1, -1, -1, -1, -1, -1, -1, -1, -1, -1],
   [0, 1, 9, 11, 7, 6, -1, -1, -1, -1, -1, -1, -1, -1, -1, -1],
   [8, 1, 9, 8, 3, 1, 11, 7, 6, -1, -1, -1, -1, -1, -1, -1],
   [10, 1, 2, 6, 11, 7, -1, -1, -1, -1, -1, -1, -1, -1, -1, -1],
   [1, 2, 10, 3, 0, 8, 6, 11, 7, -1, -1, -1, -1, -1, -1, -1],
   [2, 9, 0, 2, 10, 9, 6, 11, 7, -1, -1, -1, -1, -1, -1, -1],
   [6, 11, 7, 2, 10, 3, 10, 8, 3, 10, 9, 8, -1, -1, -1, -1],
   [7, 2, 3, 6, 2, 7, -1, -1, -1, -1, -1, -1, -1, -1, -1, -1],
   [7, 0, 8, 7, 6, 0, 6, 2, 0, -1, -1, -1, -1, -1, -1, -1],
   [2, 7, 6, 2, 3, 7, 0, 1, 9, -1, -1, -1, -1, -1, -1, -1],
   [1, 6, 2, 1, 8, 6, 1, 9, 8, 8, 7, 6, -1, -1, -1, -1],
   [10, 7, 6, 10, 1, 7, 1, 3, 7, -1, -1, -1, -1, -1, -1, -1],
   [10, 7, 6, 1, 7, 10, 1, 8, 7, 1, 0, 8, -1, -1, -1, -1],
   [0, 3, 7, 0, 7, 10, 0, 10, 9, 6, 10, 7, -1, -1, -1, -1],
   [7, 6, 10, 7, 10, 8, 8, 10, 9, -1, -1, -1, -1, -1, -1, -1]]

def TRI_ROWS_9 : List (List ℤ) :=
  [[6, 8, 4, 11, 8, 6, -1, -1, -1, -1, -1, -1, -1, -1, -1, -1],
   [3, 6, 11, 3, 0, 6, 0, 4, 6, -1, -1, -1, -1, -1, -1, -1],
   [8, 6, 11, 8, 4, 6, 9, 0, 1, -1, -1, -1, -1, -1, -1, -1],
   [9, 4, 6, 9, 6, 3, 9, 3, 1, 11, 3, 6, -1, -1, -1, -1],
   [6, 8, 4, 6, 11, 8, 2, 10, 1, -1, -1, -1, -1, -1, -1, -1],
   [1, 2, 10, 3, 0, 11, 0, 6, 11, 0, 4, 6, -1, -1, -1, -1],
   [4, 11, 8, 4, 6, 11, 0, 2, 9, 2, 10, 9, -1, -1, -1, -1],
   [10, 9, 3, 10, 3, 2, 9, 4, 3, 11, 3, 6, 4, 6, 3, -1],
   [8, 2, 3, 8, 4, 2, 4, 6, 2, -1, -1, -1, -1, -1, -1, -1],
   [0, 4, 2, 4, 6, 2, -1, -1, -1, -1, -1, -1, -1, -1, -1, -1],
   [1, 9, 0, 2, 3, 4, 2, 4, 6, 4, 3, 8, -1, -1, -1, -1],
   [1, 9, 4, 1, 4, 2, 2, 4, 6, -1, -1, -1, -1, -1, -1, -1],
   [8, 1, 3, 8, 6, 1, 8, 4, 6, 6, 10, 1, -1, -1, -1, -1],
   [10, 1, 0, 10, 0, 6, 6, 0, 4, -1, -1, -1, -1, -1, -1, -1],
   [4, 6, 3, 4, 3, 8, 6, 10, 3, 0, 3, 9, 10, 9, 3, -1],
   [10, 9, 4, 6, 10, 4, -1, -1, -1, -1, -1, -1, -1, -1, -1, -1]]

def TRI_ROWS_10 : List (List ℤ) :=
  [[4, 9, 5, 7, 6, 11, -1, -1, -1, -1, -1, -1, -1, -1, -1, -1],
   [0, 8, 3, 4, 9, 5, 11, 7, 6, -1, -1, -1, -1, -1, -1, -1],
   [5, 0, 1, 5, 4, 0, 7, 6, 11, -1, -1, -1, -1, -1, -1, -1],
   [11, 7, 6, 8, 3, 4, 3, 5, 4, 3, 1, 5, -1, -1, -1, -1],
   [9, 5, 4, 10, 1, 2, 7, 6, 11, -1, -1, -1, -1, -1, -1, -1],
   [6, 11, 7, 1, 2, 10, 0, 8, 3, 4, 9, 5, -1, -1, -1, -1],
   [7, 6, 11, 5, 4, 10, 4, 2, 10, 4, 0, 2, -1, -1, -1, -1],
   [3, 4, 8, 3, 5, 4, 3, 2, 5, 10, 5, 2, 11, 7, 6, -1],
   [7, 2, 3, 7, 6, 2, 5, 4, 9, -1, -1, -1, -1, -1, -1, -1],
   [9, 5, 4, 0, 8, 6, 0, 6, 2, 6, 8, 7, -1, -1, -1, -1],
   [3, 6, 2, 3, 7, 6, 1, 5, 0, 5, 4, 0, -1, -1, -1, -1],
   [6, 2, 8, 6, 8, 7, 2, 1, 8, 4, 8, 5, 1, 5, 8, -1],
   [9, 5, 4, 10, 1, 6, 1, 7, 6, 1, 3, 7, -1, -1, -1, -1],
   [1, 6, 10, 1, 7, 6, 1, 0, 7, 8, 7, 0, 9, 5, 4, -1],
   [4, 0, 10, 4, 10, 5, 0, 3, 10, 6, 10, 7, 3, 7, 10, -1],
   [7, 6, 10, 7, 10, 8, 5, 4, 10, 4, 8, 10, -1, -1, -1, -1]]

def TRI_ROWS_11 : List (List ℤ) :=
  [[6, 9, 5, 6, 11, 9, 11, 8, 9, -1, -1, -1, -1, -1, -1, -1],
   [3, 6, 11, 0, 6, 3, 0, 5, 6, 0, 9, 5, -1, -1, -1, -1],
   [0, 11, 8, 0, 5, 11, 0, 1, 5, 5, 6, 11, -1, -1, -1, -1],
   [6, 11, 3, 6, 3, 5, 5, 3, 1, -1, -1, -1, -1, -1, -1, -1],
   [1, 2, 10, 9, 5, 11, 9, 11, 8, 11, 5, 6, -1, -1, -1, -1],
   [0, 11, 3, 0, 6, 11, 0, 9, 6, 5, 6, 9, 1, 2, 10, -1],
   [11, 8, 5, 11, 5, 6, 8, 0, 5, 10, 5, 2, 0, 2, 5, -1],
   [6, 11, 3, 6, 3, 5, 2, 10, 3, 10, 5, 3, -1, -1, -1, -1],
   [5, 8, 9, 5, 2, 8, 5, 6, 2, 3, 8, 2, -1, -1, -1, -1],
   [9, 5, 6, 9, 6, 0, 0, 6, 2, -1, -1, -1, -1, -1, -1, -1],
   [1, 5, 8, 1, 8, 0, 5, 6, 8, 3, 8, 2, 6, 2, 8, -1],
   [1, 5, 6, 2, 1, 6, -1, -1, -1, -1, -1, -1, -1, -1, -1, -1],
   [1, 3, 6, 1, 6, 10, 3, 8, 6, 5, 6, 9, 8, 9, 6, -1],
   [10, 1, 0, 10, 0, 6, 9, 5, 0, 5, 6, 0, -1, -1, -1, -1],
   [0, 3, 8, 5, 6, 10, -1, -1, -1, -1, -1, -1, -1, -1, -1, -1],
   [10, 5, 6, -1, -1, -1, -1, -1, -1, -1, -1, -1, -1, -1, -1, -1]]

def TRI_ROWS_12 : List (List ℤ) :=
  [[11, 5, 10, 7, 5, 11, -1, -1, -1, -1, -1, -1, -1, -1, -1, -1],
   [11, 5, 10, 11, 7, 5, 8, 3, 0, -1, -1, -1, -1, -1, -1, -1],
   [5, 11, 7, 5, 10, 11, 1, 9, 0, -1, -1, -1, -1, -1, -1, -1],
   [10, 7, 5, 10, 11, 7, 9, 8, 1, 8, 3, 1, -1, -1, -1, -1],
   [11, 1, 2, 11, 7, 1, 7, 5, 1, -1, -1, -1, -1, -1, -1, -1],
   [0, 8, 3, 1, 2, 7, 1, 7, 5, 7, 2, 11, -1, -1, -1, -1],
   [9, 7, 5, 9, 2, 7, 9, 0, 2, 2, 11, 7, -1, -1, -1, -1],
   [7, 5, 2, 7, 2, 11, 5, 9, 2, 3, 2, 8, 9, 8, 2, -1],
   [2, 5, 10, 2, 3, 5, 3, 7, 5, -1, -1, -1, -1, -1, -1, -1],
   [8, 2, 0, 8, 5, 2, 8, 7, 5, 10, 2, 5, -1, -1, -1, -1],
   [9, 0, 1, 5, 10, 3, 5, 3, 7, 3, 10, 2, -1, -1, -1, -1],
   [9, 8, 2, 9, 2, 1, 8, 7, 2, 10, 2, 5, 7, 5, 2, -1],
   [1, 3, 5, 3, 7, 5, -1, -1, -1, -1, -1, -1, -1, -1, -1, -1],
   [0, 8, 7, 0, 7, 1, 1, 7, 5, -1, -1, -1, -1, -1, -1, -1],
   [9, 0, 3, 9, 3, 5, 5, 3, 7, -1, -1, -1, -1, -1, -1, -1],
   [9, 8, 7, 5, 9, 7, -1, -1, -1, -1, -1, -1, -1, -1, -1, -1]]

def TRI_ROWS_13 : List (List ℤ) :=
  [[5, 8, 4, 5, 10, 8, 10, 11, 8, -1, -1, -1, -1, -1, -1, -1],
   [5, 0, 4, 5, 11, 0, 5, 10, 11, 11, 3, 0, -1, -1, -1, -1],
   [0, 1, 9, 8, 4, 10, 8, 10, 11, 10, 4, 5, -1, -1, -1, -1],
   [10, 11, 4, 10, 4, 5, 11, 3, 4, 9, 4, 1, 3, 1, 4, -1],
   [2, 5, 1, 2, 8, 5, 2, 11, 8, 4, 5, 8, -1, -1, -1, -1],
   [0, 4, 11, 0, 11, 3, 4, 5, 11, 2, 11, 1, 5, 1, 11, -1],
   [0, 2, 5, 0, 5, 9, 2, 11, 5, 4, 5, 8, 11, 8, 5, -1],
   [9, 4, 5, 2, 11, 3, -1, -1, -1, -1, -1, -1, -1, -1, -1, -1],
   [2, 5, 10, 3, 5, 2, 3, 4, 5, 3, 8, 4, -1, -1, -1, -1],
   [5, 10, 2, 5, 2, 4, 4, 2, 0, -1, -1, -1, -1, -1, -1, -1],
   [3, 10, 2, 3, 5, 10, 3, 8, 5, 4, 5, 8, 0, 1, 9, -1],
   [5, 10, 2, 5, 2, 4, 1, 9, 2, 9, 4, 2, -1, -1, -1, -1],
   [8, 4, 5, 8, 5, 3, 3, 5, 1, -1, -1, -1, -1, -1, -1, -1],
   [0, 4, 5, 1, 0, 5, -1, -1, -1, -1, -1, -1, -1, -1, -1, -1],
   [8, 4, 5, 8, 5, 3, 9, 0, 5, 0, 3, 5, -1, -1, -1, -1],
   [9, 4, 5, -1, -1, -1, -1, -1, -1, -1, -1, -1, -1, -1, -1, -1]]

def TRI_ROWS_14 : List (List ℤ) :=
  [[4, 11, 7, 4, 9, 11, 9, 10, 11, -1, -1, -1, -1, -1, -1, -1],
   [0, 8, 3, 4, 9, 7, 9, 11, 7, 9, 10, 11, -1, -1, -1, -1],
   [1, 10, 11, 1, 11, 4, 1, 4, 0, 7, 4, 11, -1, -1, -1, -1],
   [3, 1, 4, 3, 4, 8, 1, 10, 4, 7, 4, 11, 10, 11, 4, -1],
   [4, 11, 7, 9, 11, 4, 9, 2, 11, 9, 1, 2, -1, -1, -1, -1],
   [9, 7, 4, 9, 11, 7, 9, 1, 11, 2, 11, 1, 0, 8, 3, -1],
   [11, 7, 4, 11, 4, 2, 2, 4, 0, -1, -1, -1, -1, -1, -1, -1],
   [11, 7, 4, 11, 4, 2, 8, 3, 4, 3, 2, 4, -1, -1, -1, -1],
   [2, 9, 10, 2, 7, 9, 2, 3, 7, 7, 4, 9, -1, -1, -1, -1],
   [9, 10, 7, 9, 7, 4, 10, 2, 7, 8, 7, 0, 2, 0, 7, -1],
   [3, 7, 10, 3, 10, 2, 7, 4, 10, 1, 10, 0, 4, 0, 10, -1],
   [1, 10, 2, 8, 7, 4, -1, -1, -1, -1, -1, -1, -1, -1, -1, -1],
   [4, 9, 1, 4, 1, 7, 7, 1, 3, -1, -1, -1, -1, -1, -1, -1],
   [4, 9, 1, 4, 1, 7, 0, 8, 1, 8, 7, 1, -1, -1, -1, -1],
   [4, 0, 3, 7, 4, 3, -1, -1, -1, -1, -1, -1, -1, -1, -1, -1],
   [4, 8, 7, -1, -1, -1, -1, -1, -1, -1, -1, -1, -1, -1, -1, -1]]

def TRI_ROWS_15 : List (List ℤ) :=
  [[9, 10, 8, 10, 11, 8, -1, -1, -1, -1, -1, -1, -1, -1, -1, -1],
   [3, 0, 9, 3, 9, 11, 11, 9, 10, -1, -1, -1, -1, -1, -1, -1],
   [0, 1, 10, 0, 10, 8, 8, 10, 11, -1, -1, -1, -1, -1, -1, -1],
   [3, 1, 10, 11, 3, 10, -1, -1, -1, -1, -1, -1, -1, -1, -1, -1],
   [1, 2, 11, 1, 11, 9, 9, 11, 8, -1, -1, -1, -1, -1, -1, -1],
   [3, 0, 9, 3, 9, 11, 1, 2, 9, 2, 11, 9, -1, -1, -1, -1],
   [0, 2, 11, 8, 0, 11, -1, -1, -1, -1, -1, -1, -1, -1, -1, -1],
   [3, 2, 11, -1, -1, -1, -1, -1, -1, -1, -1, -1, -1, -1, -1, -1],
   [2, 3, 8, 2, 8, 10, 10, 8, 9, -1, -1, -1, -1, -1, -1, -1],
   [9, 10, 2, 0, 9, 2, -1, -1, -1, -1, -1, -1, -1, -1, -1, -1],
   [2, 3, 8, 2, 8, 10, 0, 1, 8, 1, 10, 8, -1, -1, -1, -1],
   [1, 10, 2, -1, -1, -1, -1, -1, -1, -1, -1, -1, -1, -1, -1, -1],
   [1, 3, 8, 9, 1, 8, -1, -1, -1, -1, -1, -1, -1, -1, -1, -1],
   [0, 9, 1, -1, -1, -1, -1, -1, -1, -1, -1, -1, -1, -1, -1, -1],
   [0, 3, 8, -1, -1, -1, -1, -1, -1, -1, -1, -1, -1, -1, -1, -1],
   [-1, -1, -1, -1, -1, -1, -1, -1, -1, -1, -1, -1, -1, -1, -1, -1]]

/-- `TRIANGLE_TABLE` (lines 437-693): 256 rows of 16 edge indices,
`-1`-terminated, split into chunks of 16 rows to keep elaboration fast. -/
def TRIANGLE_TABLE : List (List ℤ) :=
  TRI_ROWS_0 ++ TRI_ROWS_1 ++ TRI_ROWS_2 ++ TRI_ROWS_3 ++ TRI_ROWS_4 ++ TRI_ROWS_5 ++
  TRI_ROWS_6 ++ TRI_ROWS_7 ++ TRI_ROWS_8 ++ TRI_ROWS_9 ++ TRI_ROWS_10 ++ TRI_ROWS_11 ++
  TRI_ROWS_12 ++ TRI_ROWS_13 ++ TRI_ROWS_14 ++ TRI_ROWS_15

/-- The triangle-list mesh produced by `marching_cubes` (`Mesh` of
`mesh.rs`: a vertex array and a `u32` index array). -/
structure Mesh where
  vertices : List Vertex
  indices : List ℕ
deriving DecidableEq

/-- The mutable state threaded through the cell loops: the growing vertex
and index arrays, and the per-cell edge-to-vertex slot table
(`index_map: [usize; 12]`, declared once outside the loops and therefore
carried across cells). -/
structure MCState where
  vertices : List Vertex
  indices : List ℕ
  index_map : ℕ → ℕ

/-- `eval_field_at_corners` (lines 256-273): the eight corner samples of a
cell, in Bourke corner order. -/
def eval_field_at_corners (field : ScalarFieldFn) (x y z x_dx y_dy z_dz : ℚ) : Fin 8 → ℚ :=
  ![field x y z, field x_dx y z, field x_dx y_dy z, field x y_dy z,
    field x y z_dz, field x_dx y z_dz, field x_dx y_dy z_dz, field x y_dy z_dz]

/-- The vertex placed on edge `k` of the current cell: the twelve
`intersection_vertex` calls of the source (lines 47-201), one per edge in
Bourke edge numbering. -/
def edge_vertex (x y z x_dx y_dy z_dz iso : ℚ) (vals : Fin 8 → ℚ) : ℕ → Vertex
  | 0 => intersection_vertex x y z x_dx Axis.X (vals 0) (vals 1) iso
  | 1 => intersection_vertex x_dx y z y_dy Axis.Y (vals 1) (vals 2) iso
  | 2 => intersection_vertex x_dx y_dy z x Axis.X (vals 2) (vals 3) iso
  | 3 => intersection_vertex x y_dy z y Axis.Y (vals 3) (vals 0) iso
  | 4 => intersection_vertex x y z_dz x_dx Axis.X (vals 4) (vals 5) iso
  | 5 => intersection_vertex x_dx y z_dz y_dy Axis.Y (vals 5) (vals 6) iso
  | 6 => intersection_vertex x_dx y_dy z_dz x Axis.X (vals 6) (vals 7) iso
  | 7 => intersection_vertex x y_dy z_dz y Axis.Y (vals 7) (vals 4) iso
  | 8 => intersection_vertex x y z z_dz Axis.Z (vals 0) (vals 4) iso
  | 9 => intersection_vertex x_dx y z z_dz Axis.Z (vals 1) (vals 5) iso
  | 10 => intersection_vertex x_dx y_dy z z_dz Axis.Z (vals 2) (vals 6) iso
  | 11 => intersection_vertex x y_dy z z_dz Axis.Z (vals 3) (vals 7) iso
  | _ => ⟨⟨0, 0, 0⟩, ⟨0, 0, 0⟩⟩

/-- The twelve guarded edge blocks (lines 47-201): for each flagged edge
`k` (bit `k` of the edge mask, tested in order `0x001 .. 0x800`), record
the next vertex index in `index_map[k]` and push the edge's vertex. -/
def write_edge_step (edges : ℕ) (ev : ℕ → Vertex) (s : MCState) (k : ℕ) : MCState :=
  if edges.testBit k then
    { s with
        index_map := fun m => if m = k then s.vertices.length else s.index_map m,
        vertices := s.vertices ++ [ev k] }
  else s

def write_edges (edges : ℕ) (ev : ℕ → Vertex) (st : MCState) : MCState :=
  (List.range 12).foldl (write_edge_step edges ev) st

/-- `vertices[i].normal = normalized_field_gradient_at_vertex(field, &vertices[i].position)`
with the normalized-gradient map abstracted as `normal_at` (its value never
influences control flow; `ℚ` has no square root, so normalization is kept
abstract). -/
def set_vertex_normal (normal_at : Vec3 → Vec3) (vs : List Vertex) (i : ℕ) : List Vertex :=
  let v := vs.getD i ⟨⟨0, 0, 0⟩, ⟨0, 0, 0⟩⟩
  vs.set i { v with normal := normal_at v.position }

/-- The triangle emission loop (lines 203-240): read the triangle table row
in chunks of three, stopping at the first chunk whose head is `-1`; each
emitted triangle assigns the three vertices their normals and appends their
`index_map` slots to the index array. -/
def emit_triangles (normal_at : Vec3 → Vec3) (st : MCState) : List ℤ → MCState
  | a :: b :: c :: rest =>
    if a = -1 then st
    else
      let i0 := st.index_map a.toNat
      let i1 := st.index_map b.toNat
      let i2 := st.index_map c.toNat
      let vs := set_vertex_normal normal_at
                  (set_vertex_normal normal_at
                    (set_vertex_normal normal_at st.vertices i0) i1) i2
      emit_triangles normal_at
        { st with vertices := vs, indices := st.indices ++ [i0, i1, i2] } rest
  | _ => st

/-- The body of the innermost loop (lines 31-241) for the cell with minimum
corner `cell`: sample the corners, look up the edge mask, skip the cell if
it is zero, otherwise place the flagged edge vertices and emit the cell's
triangles. -/
def process_cell (field : ScalarFieldFn) (normal_at : Vec3 → Vec3) (step iso_value : ℚ)
    (st : MCState) (cell : ℚ × ℚ × ℚ) : MCState :=
  let x := cell.1
  let y := cell.2.1
  let z := cell.2.2
  let x_dx := x + step
  let y_dy := y + step
  let z_dz := z + step
  let values_on_cube := eval_field_at_corners field x y z x_dx y_dy z_dz
  let cube_index := find_cube_index iso_value values_on_cube
  let edges := EDGE_TABLE.getD cube_index 0
  if edges = 0 then st
  else
    emit_triangles normal_at
      (write_edges edges (edge_vertex x y z x_dx y_dy z_dz iso_value values_on_cube) st)
      (TRIANGLE_TABLE.getD cube_index [])

/-- The cells visited by the three nested loops, outermost `x` first. -/
def mc_cells (mn mx : Vec3) (step : ℚ) : List (ℚ × ℚ × ℚ) :=
  (coords mn.x mx.x step).flatMap (fun x =>
    (coords mn.y mx.y step).flatMap (fun y =>
      (coords mn.z mx.z step).map (fun z => (x, y, z))))

/-- `marching_cubes` (lines 7-254): fold the cell processing over the grid,
starting from empty vertex/index arrays and a zero-initialized
`index_map`. -/
def marching_cubes (field : ScalarFieldFn) (normal_at : Vec3 → Vec3)
    (mn mx : Vec3) (step iso_value : ℚ) : Mesh :=
  let st := (mc_cells mn mx step).foldl (process_cell field normal_at step iso_value)
    ⟨[], [], fun _ => 0⟩
  ⟨st.vertices, st.indices⟩

/-- The eight corner points at which `eval_field_at_corners` samples the
field for a cell, as vectors. -/
def cell_corners (cell : ℚ × ℚ × ℚ) (step : ℚ) : List Vec3 :=
  let x := cell.1
  let y := cell.2.1
  let z := cell.2.2
  let x_dx := x + step
  let y_dy := y + step
  let z_dz := z + step
  [⟨x, y, z⟩, ⟨x_dx, y, z⟩, ⟨x_dx, y_dy, z⟩, ⟨x, y_dy, z⟩,
   ⟨x, y, z_dz⟩, ⟨x_dx, y, z_dz⟩, ⟨x_dx, y_dy, z_dz⟩, ⟨x, y_dy, z_dz⟩]

/-- The corner samples are exactly the field values at `cell_corners`. -/
lemma eval_field_at_corners_eq_cell_corners (field : ScalarFieldFn)
    (x y z step : ℚ) (i : Fin 8) :
    eval_field_at_corners field x y z (x + step) (y + step) (z + step) i =
      fieldAt field ((cell_corners (x, y, z) step).getD i ⟨0, 0, 0⟩) := by
  fin_cases i <;> rfl

/-- C7: with `step > 0`, every cell visited by the marching-cubes loops
satisfies the loop guards (`coordinate ≥ min` and `coordinate + step < max`
on each axis), and consequently every grid-corner field evaluation of the
cell is at a point `p` with `min ≤ p ≤ max` componentwise. -/
theorem marching_cubes_samples_in_bounds (mn mx : Vec3) (step : ℚ) (hs : 0 < step) :
    ∀ cell ∈ mc_cells mn mx step,
      (mn.x ≤ cell.1 ∧ cell.1 + step < mx.x) ∧
      (mn.y ≤ cell.2.1 ∧ cell.2.1 + step < mx.y) ∧
      (mn.z ≤ cell.2.2 ∧ cell.2.2 + step < mx.z) ∧
      ∀ p ∈ cell_corners cell step,
        (mn.x ≤ p.x ∧ p.x ≤ mx.x) ∧ (mn.y ≤ p.y ∧ p.y ≤ mx.y) ∧
        (mn.z ≤ p.z ∧ p.z ≤ mx.z) := by
  intro cell hcell
  simp only [mc_cells, List.mem_flatMap, List.mem_map] at hcell
  obtain ⟨x, hx, y, hy, z, hz, rfl⟩ := hcell
  obtain ⟨hx1, hx2⟩ := mem_coords _ _ _ _ (le_of_lt hs) hx
  obtain ⟨hy1, hy2⟩ := mem_coords _ _ _ _ (le_of_lt hs) hy
  obtain ⟨hz1, hz2⟩ := mem_coords _ _ _ _ (le_of_lt hs) hz
  refine ⟨⟨hx1, hx2⟩, ⟨hy1, hy2⟩, ⟨hz1, hz2⟩, ?_⟩
  intro p hp
  simp only [cell_corners, List.mem_cons, List.not_mem_nil, or_false] at hp
  rcases hp with rfl | rfl | rfl | rfl | rfl | rfl | rfl | rfl <;>
    exact ⟨⟨by dsimp only; linarith, by dsimp only; linarith⟩,
           ⟨by dsimp only; linarith, by dsimp only; linarith⟩,
           ⟨by dsimp only; linarith, by dsimp only; linarith⟩⟩

/-- Witness for C7: region `[0,2]³`, step 1; the single cell is `(0,0,0)`
and its corner `(1,1,1)` is within bounds. -/
theorem marching_cubes_samples_in_bounds_witness :
    ((Vec3.mk 0 0 0).x ≤ (Vec3.mk 1 1 1).x ∧ (Vec3.mk 1 1 1).x ≤ (Vec3.mk 2 2 2).x) ∧
    ((Vec3.mk 0 0 0).y ≤ (Vec3.mk 1 1 1).y ∧ (Vec3.mk 1 1 1).y ≤ (Vec3.mk 2 2 2).y) ∧
    ((Vec3.mk 0 0 0).z ≤ (Vec3.mk 1 1 1).z ∧ (Vec3.mk 1 1 1).z ≤ (Vec3.mk 2 2 2).z) := by
  have h1 : coords (1 : ℚ) 2 1 = [] := by
    rw [coords_unfold 1 2 1 (by norm_num)]
    norm_num
  have h0 : coords (0 : ℚ) 2 1 = [0] := by
    rw [coords_unfold 0 2 1 (by norm_num)]
    norm_num [h1]
  have hcells : ((0 : ℚ), (0 : ℚ), (0 : ℚ)) ∈ mc_cells ⟨0, 0, 0⟩ ⟨2, 2, 2⟩ 1 := by
    simp [mc_cells, h0]
  have hcorner : (⟨1, 1, 1⟩ : Vec3) ∈ cell_corners ((0 : ℚ), (0 : ℚ), (0 : ℚ)) 1 := by
    simp [cell_corners, Vec3.mk.injEq]
  exact (marching_cubes_samples_in_bounds ⟨0, 0, 0⟩ ⟨2, 2, 2⟩ 1 (by norm_num)
    (0, 0, 0) hcells).2.2.2 ⟨1, 1, 1⟩ hcorner

/-- `num_steps` in the submit closure of `ChunkRenderer::render`
(`let num_steps = 16.0`), N_STEPS of the spec. -/
def N_STEPS : ℚ := 16

/-- `field_to_mesh` (`src/src/gfx/lod.rs`, lines 85-105): meshes the region
from `position` to `position + size` (`let p = position + size`) with the
given step and iso-value; the barycentric-coordinate conversion applied to
the resulting mesh is abstracted as `with_bary`. -/
def field_to_mesh (with_bary : Mesh → Mesh) (field : ScalarFieldFn)
    (normal_at : Vec3 → Vec3) (position : Vec3) (size step iso_value : ℚ) : Mesh :=
  with_bary (marching_cubes field normal_at position (position.addScalar size) step iso_value)

/-- The worker job body submitted by the submit step for `chunk_id`
(lines 393-423): `step_size = chunk_size / num_steps`, and `field_to_mesh`
is called with size `chunk_size + step_size`, step `step_size` and
iso-value `0.0`. -/
def submitted_job_mesh (with_bary : Mesh → Mesh) (field : ScalarFieldFn)
    (normal_at : Vec3 → Vec3) (chunk_id : ChunkId) : Mesh :=
  let position := chunk_id.position
  let chunk_size := chunk_id.size
  let step_size := chunk_size / N_STEPS
  field_to_mesh with_bary field normal_at position (chunk_size + step_size) step_size 0

/-- C8: the job submitted for a ChunkId runs marching cubes over the region
from `id.position()` to `id.position() + id.size() + s` with step
`s = id.size() / N_STEPS` (N_STEPS = 16) and iso-value 0. -/
theorem submitted_job_runs_marching_cubes_on_chunk_region (with_bary : Mesh → Mesh)
    (field : ScalarFieldFn) (normal_at : Vec3 → Vec3) (chunk_id : ChunkId) :
    submitted_job_mesh with_bary field normal_at chunk_id =
      with_bary (marching_cubes field normal_at chunk_id.position
        (chunk_id.position.addScalar (chunk_id.size + chunk_id.size / 16))
        (chunk_id.size / 16) 0) := rfl

/-! ## C10: every emitted index is a valid vertex index -/

/-- The triangle-table entries actually read by the emission loop: the
chunks of three up to (excluding) the first chunk whose head is `-1`. -/
def read_entries : List ℤ → List ℤ
  | a :: b :: c :: rest => if a = -1 then [] else a :: b :: c :: read_entries rest
  | _ => []

set_option maxRecDepth 100000 in
/-- Table coherence, checked by evaluation over all 256 cube indices: every
triangle-table entry the emission loop reads is an edge number below 12
whose bit is set in the same row's edge mask -- so the `index_map` slot it
reads was written while processing the current cell. -/
lemma triangle_table_reads_flagged :
    ∀ ci < 256, ∀ e ∈ read_entries (TRIANGLE_TABLE.getD ci []),
      0 ≤ e ∧ e.toNat < 12 ∧ (EDGE_TABLE.getD ci 0).testBit e.toNat = true := by decide

lemma find_cube_index_foldl_lt (iso : ℚ) (vals : Fin 8 → ℚ) :
    ∀ (l : List (Fin 8)) (acc : ℕ), acc < 256 →
      l.foldl (fun index vertex =>
        if vals vertex < iso then index ||| (1 <<< (vertex : ℕ)) else index) acc < 256 := by
  intro l
  induction l with
  | nil => intro acc h; exact h
  | cons a l ih =>
    intro acc h
    rw [List.foldl_cons]
    apply ih
    by_cases hlt : vals a < iso
    · rw [if_pos hlt]
      have h8 : acc < 2 ^ 8 := by simpa using h
      have hs : 1 <<< (a : ℕ) < 2 ^ 8 := by
        rw [Nat.one_shiftLeft]
        exact Nat.pow_lt_pow_right (by norm_num) a.isLt
      simpa using @Nat.or_lt_two_pow acc (1 <<< (a : ℕ)) 8 h8 hs
    · rw [if_neg hlt]
      exact h

/-- The cube index is always below 256, so the table lookups are in
range. -/
lemma find_cube_index_lt (iso : ℚ) (vals : Fin 8 → ℚ) : find_cube_index iso vals < 256 :=
  find_cube_index_foldl_lt iso vals (List.finRange 8) 0 (by norm_num)

lemma write_edges_foldl_spec (edges : ℕ) (ev : ℕ → Vertex) :
    ∀ (l : List ℕ) (st : MCState),
      (l.foldl (write_edge_step edges ev) st).indices = st.indices ∧
      st.vertices.length ≤ (l.foldl (write_edge_step edges ev) st).vertices.length ∧
      (∀ k, k ∉ l → (l.foldl (write_edge_step edges ev) st).index_map k = st.index_map k) ∧
      (∀ k ∈ l, edges.testBit k = true →
        (l.foldl (write_edge_step edges ev) st).index_map k <
          (l.foldl (write_edge_step edges ev) st).vertices.length) := by
  intro l
  induction l with
  | nil =>
    intro st
    exact ⟨rfl, le_refl _, fun k _ => rfl, fun k hk => absurd hk (List.not_mem_nil k)⟩
  | cons k0 rest ih =>
    intro st
    obtain ⟨ia, ib, ic, id2⟩ := ih (write_edge_step edges ev st k0)
    have step_indices : (write_edge_step edges ev st k0).indices = st.indices := by
      unfold write_edge_step
      split <;> rfl
    have step_len : st.vertices.length ≤ (write_edge_step edges ev st k0).vertices.length := by
      unfold write_edge_step
      split <;> simp
    refine ⟨?_, ?_, ?_, ?_⟩
    · rw [List.foldl_cons, ia, step_indices]
    · rw [List.foldl_cons]
      exact le_trans step_len ib
    · intro k hk
      have hk0 : k ≠ k0 := fun h => hk (h ▸ List.mem_cons_self k0 rest)
      have hkr : k ∉ rest := fun h => hk (List.mem_cons_of_mem _ h)
      rw [List.foldl_cons, ic k hkr]
      unfold write_edge_step
      split
      · simp [hk0]
      · rfl
    · intro k hk htb
      rw [List.foldl_cons]
      rcases List.mem_cons.mp hk with rfl | hkr
      · by_cases hkrest : k ∈ rest
        · exact id2 k hkrest htb
        · rw [ic k hkrest]
          have hmap : (write_edge_step edges ev st k).index_map k = st.vertices.length := by
            unfold write_edge_step
            rw [if_pos htb]
            simp
          have hlen1 : st.vertices.length < (write_edge_step edges ev st k).vertices.length := by
            unfold write_edge_step
            rw [if_pos htb]
            simp
          rw [hmap]
          exact lt_of_lt_of_le hlen1 ib
      · exact id2 k hkr htb

lemma write_edges_spec (edges : ℕ) (ev : ℕ → Vertex) (st : MCState) :
    (write_edges edges ev st).indices = st.indices ∧
    st.vertices.length ≤ (write_edges edges ev st).vertices.length ∧
    (∀ k < 12, edges.testBit k = true →
      (write_edges edges ev st).index_map k < (write_edges edges ev st).vertices.length) := by
  obtain ⟨ia, ib, -, id2⟩ := write_edges_foldl_spec edges ev (List.range 12) st
  exact ⟨ia, ib, fun k hk htb => id2 k (List.mem_range.mpr hk) htb⟩

lemma set_vertex_normal_length (normal_at : Vec3 → Vec3) (vs : List Vertex) (i : ℕ) :
    (set_vertex_normal normal_at vs i).length = vs.length := by
  unfold set_vertex_normal
  simp

lemma emit_triangles_good (normal_at : Vec3 → Vec3) :
    ∀ (n : ℕ) (row : List ℤ) (st : MCState), row.length ≤ n →
      (∀ i ∈ st.indices, i < st.vertices.length) →
      (∀ e ∈ read_entries row, st.index_map e.toNat < st.vertices.length) →
      ∀ i ∈ (emit_triangles normal_at st row).indices,
        i < (emit_triangles normal_at st row).vertices.length := by
  intro n
  induction n with
  | zero =>
    intro row st hlen h1 _
    have hrow : row = [] := List.eq_nil_of_length_eq_zero (Nat.le_zero.mp hlen)
    subst hrow
    simpa [emit_triangles] using h1
  | succ n ih =>
    intro row st hlen h1 h2
    match row with
    | [] => simpa [emit_triangles] using h1
    | [a] => simpa [emit_triangles] using h1
    | [a, b] => simpa [emit_triangles] using h1
    | a :: b :: c :: rest =>
      simp only [emit_triangles]
      by_cases ha : a = -1
      · rw [if_pos ha]
        exact h1
      · rw [if_neg ha]
        have hre : read_entries (a :: b :: c :: rest) = a :: b :: c :: read_entries rest := by
          conv_lhs => rw [read_entries]
          rw [if_neg ha]
        have hlen3 :
            (set_vertex_normal normal_at
              (set_vertex_normal normal_at
                (set_vertex_normal normal_at st.vertices (st.index_map a.toNat))
                (st.index_map b.toNat))
              (st.index_map c.toNat)).length = st.vertices.length := by
          rw [set_vertex_normal_length, set_vertex_normal_length, set_vertex_normal_length]
        apply ih rest _ (by simp at hlen; omega)
        · intro i hi
          simp only [hlen3]
          rcases List.mem_append.mp hi with hi | hi
          · exact h1 i hi
          · rcases List.mem_cons.mp hi with rfl | hi
            · exact h2 a (hre ▸ List.mem_cons_self a _)
            · rcases List.mem_cons.mp hi with rfl | hi
              · exact h2 b (hre ▸ List.mem_cons_of_mem a (List.mem_cons_self b _))
              · rcases List.mem_cons.mp hi with rfl | hi
                · exact h2 c
                    (hre ▸ List.mem_cons_of_mem a
                      (List.mem_cons_of_mem b (List.mem_cons_self c _)))
                · exact absurd hi (List.not_mem_nil i)
        · intro e he
          simp only [hlen3]
          exact h2 e (hre ▸ List.mem_cons_of_mem a
            (List.mem_cons_of_mem b (List.mem_cons_of_mem c he)))

lemma process_cell_good (field : ScalarFieldFn) (normal_at : Vec3 → Vec3)
    (step iso_value : ℚ) (st : MCState) (cell : ℚ × ℚ × ℚ)
    (h : ∀ i ∈ st.indices, i < st.vertices.length) :
    ∀ i ∈ (process_cell field normal_at step iso_value st cell).indices,
      i < (process_cell field normal_at step iso_value st cell).vertices.length := by
  unfold process_cell
  simp only []
  by_cases he :
      EDGE_TABLE.getD
        (find_cube_index iso_value
          (eval_field_at_corners field cell.1 cell.2.1 cell.2.2
            (cell.1 + step) (cell.2.1 + step) (cell.2.2 + step))) 0 = 0
  · rw [if_pos he]
    exact h
  · rw [if_neg he]
    set ci := find_cube_index iso_value
      (eval_field_at_corners field cell.1 cell.2.1 cell.2.2
        (cell.1 + step) (cell.2.1 + step) (cell.2.2 + step)) with hci
    set ev := edge_vertex cell.1 cell.2.1 cell.2.2
      (cell.1 + step) (cell.2.1 + step) (cell.2.2 + step) iso_value
      (eval_field_at_corners field cell.1 cell.2.1 cell.2.2
        (cell.1 + step) (cell.2.1 + step) (cell.2.2 + step)) with hev
    obtain ⟨wa, wb, wc⟩ := write_edges_spec (EDGE_TABLE.getD ci 0) ev st
    apply emit_triangles_good normal_at (TRIANGLE_TABLE.getD ci []).length _ _ (le_refl _)
    · intro i hi
      rw [wa] at hi
      exact lt_of_lt_of_le (h i hi) wb
    · intro e he2
      obtain ⟨-, hlt, htb⟩ :=
        triangle_table_reads_flagged ci (find_cube_index_lt _ _) e he2
      exact wc e.toNat hlt htb

lemma marching_cubes_foldl_good (field : ScalarFieldFn) (normal_at : Vec3 → Vec3)
    (step iso_value : ℚ) :
    ∀ (cells : List (ℚ × ℚ × ℚ)) (st : MCState),
      (∀ i ∈ st.indices, i < st.vertices.length) →
      ∀ i ∈ (cells.foldl (process_cell field normal_at step iso_value) st).indices,
        i < (cells.foldl (process_cell field normal_at step iso_value) st).vertices.length := by
  intro cells
  induction cells with
  | nil => intro st h; exact h
  | cons cell rest ih =>
    intro st h
    rw [List.foldl_cons]
    exact ih _ (process_cell_good field normal_at step iso_value st cell h)

/-- C10: for every input, every entry of the index list of the mesh
returned by `marching_cubes` is a valid index into its vertex list
(strictly less than the number of vertices): the triangle table only
references edges flagged in the edge table for the same cube index, so
every `index_map` slot read during a cell was written during that cell and
points at an existing vertex. -/
theorem marching_cubes_indices_valid (field : ScalarFieldFn) (normal_at : Vec3 → Vec3)
    (mn mx : Vec3) (step iso_value : ℚ) :
    ((marching_cubes field normal_at mn mx step iso_value).indices).all
      (fun i =>
        decide (i < (marching_cubes field normal_at mn mx step iso_value).vertices.length)) =
      true := by
  rw [List.all_eq_true]
  intro i hi
  apply decide_eq_true
  exact marching_cubes_foldl_good field normal_at step iso_value
    (mc_cells mn mx step) ⟨[], [], fun _ => 0⟩ (by simp) i hi
